import Mathlib

/-!
Verification development for the enzyme thermostability data pipeline
(`enzyme_dataset.py`).  Protein sequences are modelled as `List Char`,
dataframe rows as structures, pandas/NumPy floats as `ℚ` with `NaN`
rendered as `none : Option ℚ`, and randomness as explicit oracle
arguments (a theorem quantifying over the oracle covers every draw).
Fallible code returns `Except`.
-/

/-- Set of possible amino-acids (`AA_letters`, src line 22). -/
def AA_letters : List Char :=
  ['A', 'B', 'C', 'D', 'E', 'F', 'G', 'H', 'I', 'K', 'L', 'M', 'N',
   'O', 'P', 'Q', 'R', 'S', 'T', 'U', 'V', 'W', 'X', 'Y', 'Z']

/-- One column of `df_count` (src line 38): occurrences of amino-acid `aa`
in a sequence. -/
def countAA (s : List Char) (aa : Char) : Nat := s.count aa

/-- The `len` column of `df_count` (src line 41): the sum of all amino-acid
counts.  Equals the sequence length when every character is an amino-acid
letter. -/
def lenAA (s : List Char) : Nat := (AA_letters.map (countAA s)).sum

/-- Modelled from the spec: `character_distance` (called at src line 75) is
not part of `src/`.  Per spec §4.1 the Sequence Comparator returns a numeric
distance per candidate "cheaply estimated from amino-acid count differences",
used as a pre-filter against `max_rate` with the contract that no candidate
whose true substitution rate is below the threshold is discarded.  The
canonical such estimate is half the L1 distance between the per-letter count
vectors, normalised by the reference length (each substitution changes two
counts by one, so this is a lower bound on the true substitution rate; the
spec's "upper bound" wording is examined in claim C8). -/
def countDistSum (s t : List Char) : ℕ :=
  (AA_letters.map (fun aa => ((countAA s aa : ℤ) - (countAA t aa : ℤ)).natAbs)).sum

/-- Modelled from the spec: the Comparator value compared against `max_rate`
at src line 77 — half the count-difference sum, normalised by length. -/
def character_distance (s t : List Char) : ℚ :=
  (countDistSum s t : ℚ) / (2 * (lenAA s : ℚ))

/-- Number of differing positions among the first `n` positions of two
sequences (the character-by-character loop, src lines 87-90). -/
def diffCount (s t : List Char) (n : Nat) : Nat :=
  ((List.range n).filter (fun i => s.getD i ' ' ≠ t.getD i ' ')).length

/-- Mutable state of the `group_mutations` loop: the `s_groups` series
(`none` = pandas `NaN`), the processed-id list `idx_out`, and the running
`group_id` counter (an `Option ℚ` because line 95 can in principle copy a
`NaN` back into it). -/
structure GState where
  sGroups : List (Option ℚ)
  idxOut : List Nat
  groupId : Option ℚ
  deriving Repr, DecidableEq

/-- `s_groups.max()` with pandas `skipna` semantics: the maximum of the
non-`NaN` entries, `NaN` (= `none`) when there is none. -/
def sMax : List (Option ℚ) → Option ℚ
  | [] => none
  | none :: l => sMax l
  | some q :: l =>
    match sMax l with
    | none => some q
    | some v => some (max q v)

/-- Float equality in the presence of `NaN`: `NaN` compares unequal to
everything (pandas/NumPy semantics). -/
def qeqOpt : Option ℚ → Option ℚ → Bool
  | some a, some b => a == b
  | _, _ => false

/-- The group-id counter update after a reference gains a group
(src lines 105-109): `group_id += 1` when `group_id == 0` or
`group_id == s_groups.max()`, else `group_id = s_groups.max() + 1`. -/
def advanceCounter (sg : List (Option ℚ)) (g : Option ℚ) : Option ℚ :=
  if qeqOpt g (some 0) || qeqOpt g (sMax sg) then g.map (· + 1)
  else (sMax sg).map (· + 1)

/-- Same-length candidates of reference `id` (src line 67):
`df_count[df_count["len"] == prot["len"]].drop(id)`, in index order. -/
def candidates (recs : List (List Char)) (id : Nat) : List (Nat × List Char) :=
  recs.enum.filter (fun p => p.1 ≠ id ∧ lenAA p.2 = lenAA (recs.getD id []))

/-- Candidates surviving the Comparator pre-filter (src lines 75-77):
`df_sub[dist < max_rate]`. -/
def filteredCandidates (recs : List (List Char)) (mr : ℚ) (id : Nat) :
    List (Nat × List Char) :=
  (candidates recs id).filter
    (fun p => character_distance (recs.getD id []) p.2 < mr)

/-- One iteration of the character-by-character candidate loop
(src lines 84-100), threading the state and the `n_mutations` count. -/
def procCand (refSeq : List Char) (n : Nat) (mr : ℚ)
    (st : GState × Nat) (cand : Nat × List Char) : GState × Nat :=
  let g := st.1
  let diff := diffCount refSeq cand.2 n
  if (diff : ℚ) / (n : ℚ) < mr then
    let gid := if cand.1 ∈ g.idxOut then g.sGroups.getD cand.1 none else g.groupId
    (⟨g.sGroups.set cand.1 gid, g.idxOut ++ [cand.1], gid⟩, st.2 + 1)
  else st

/-- Processing of one reference id (one iteration of the loop at src
lines 58-111).  The early `continue` for an empty same-length bucket
(src lines 70-72) has the same net effect as running the candidate loop on
an empty list (`idx_out.append(id)`, nothing else), so both paths are
merged here. -/
def procRef (recs : List (List Char)) (mr : ℚ) (g : GState) (id : Nat) : GState :=
  if id ∈ g.idxOut then g
  else
    let refSeq := recs.getD id []
    let n := lenAA refSeq
    let r := (filteredCandidates recs mr id).foldl (procCand refSeq n mr) (g, 0)
    if r.2 ≠ 0 then
      let sg := r.1.sGroups.set id r.1.groupId
      ⟨sg, r.1.idxOut ++ [id], advanceCounter sg r.1.groupId⟩
    else ⟨r.1.sGroups, r.1.idxOut ++ [id], r.1.groupId⟩

/-- Initial state of `group_mutations` (src lines 46-56): all groups `NaN`,
no processed ids, counter `0`. -/
def initGState (n : Nat) : GState :=
  ⟨List.replicate n none, [], some 0⟩

/-- `group_mutations(df, max_rate)` (src lines 25-114): records are listed in
dataframe-index order and identified by position; the result is the
`s_groups` series. -/
def group_mutations (recs : List (List Char)) (mr : ℚ) : List (Option ℚ) :=
  ((List.range recs.length).foldl (procRef recs mr) (initGState recs.length)).sGroups

/-- Two records carry the same (non-`NaN`) group identifier. -/
def sameGroupB (l : List (Option ℚ)) (i j : Nat) : Bool :=
  match l.getD i none, l.getD j none with
  | some a, some b => a == b
  | _, _ => false

/-! ### Supporting lemmas for the grouping component -/

lemma sum_map_add_nat {α : Type} (l : List α) (f g : α → ℕ) :
    (l.map (fun a => f a + g a)).sum = (l.map f).sum + (l.map g).sum := by
  induction l with
  | nil => simp
  | cons a l ih => simp [ih]; omega

lemma sum_map_ite_count (l : List Char) (c : Char) :
    (l.map (fun aa => if aa = c then 1 else 0)).sum = l.count c := by
  induction l with
  | nil => simp
  | cons a l ih =>
    rw [List.map_cons, List.sum_cons, List.count_cons, ih]
    by_cases h : a = c
    · subst h; simp; omega
    · simp [h, Ne.symm h]

lemma countAA_cons (a : Char) (s : List Char) (aa : Char) :
    countAA (a :: s) aa = countAA s aa + if aa = a then 1 else 0 := by
  simp only [countAA, List.count_cons]
  by_cases h : aa = a
  · simp [h]
  · simp [h, Ne.symm h]

lemma AA_nodup : AA_letters.Nodup := by decide

lemma lenAA_nil : lenAA [] = 0 := by decide

lemma lenAA_cons_mem (a : Char) (s : List Char) (ha : a ∈ AA_letters) :
    lenAA (a :: s) = lenAA s + 1 := by
  unfold lenAA
  have h1 : (AA_letters.map (countAA (a :: s))).sum =
      (AA_letters.map (countAA s)).sum +
      (AA_letters.map (fun aa => if aa = a then 1 else 0)).sum := by
    rw [← sum_map_add_nat]
    congr 1
    exact List.map_congr_left (fun aa _ => countAA_cons a s aa)
  rw [h1, sum_map_ite_count, List.count_eq_one_of_mem AA_nodup ha]

lemma lenAA_eq_length (s : List Char) (hs : ∀ c ∈ s, c ∈ AA_letters) :
    lenAA s = s.length := by
  induction s with
  | nil => simpa using lenAA_nil
  | cons a s ih =>
    rw [lenAA_cons_mem a s (hs a (by simp)), ih (fun c hc => hs c (by simp [hc]))]
    simp

lemma diffCount_succ (a b : Char) (s t : List Char) (n : Nat) :
    diffCount (a :: s) (b :: t) (n + 1) =
      (if a = b then 0 else 1) + diffCount s t n := by
  unfold diffCount
  rw [List.range_succ_eq_map, List.filter_cons]
  simp only [List.getD_cons_zero, List.getD_cons_succ, List.filter_map,
    Function.comp_def]
  by_cases h : a = b <;> simp [h] <;> omega

lemma diffCount_comm (s t : List Char) (n : Nat) :
    diffCount s t n = diffCount t s n := by
  unfold diffCount
  congr 1
  exact List.filter_congr (fun i _ => by simp [ne_comm])

lemma ind_pair_sum (a b : Char) (ha : a ∈ AA_letters) (hb : b ∈ AA_letters) :
    (AA_letters.map (fun aa =>
      ((((if aa = a then 1 else 0) : ℤ)) - (((if aa = b then 1 else 0) : ℤ))).natAbs)).sum
      = if a = b then 0 else 2 := by
  by_cases h : a = b
  · subst h
    simp
  · have hcongr : (AA_letters.map (fun aa =>
        ((((if aa = a then 1 else 0) : ℤ)) - (((if aa = b then 1 else 0) : ℤ))).natAbs)).sum
        = (AA_letters.map (fun aa =>
            (if aa = a then 1 else 0) + ((if aa = b then 1 else 0) : ℕ))).sum := by
      congr 1
      refine List.map_congr_left (fun aa _ => ?_)
      by_cases h1 : aa = a <;> by_cases h2 : aa = b
      · exact absurd (h1.symm.trans h2) h
      · simp [h1, h2, h]
      · simp [h1, h2, Ne.symm h]
      · simp [h1, h2]
    rw [hcongr, sum_map_add_nat, sum_map_ite_count, sum_map_ite_count,
      List.count_eq_one_of_mem AA_nodup ha, List.count_eq_one_of_mem AA_nodup hb]
    simp [h]

lemma L1_le_two_diff (s : List Char) : ∀ t : List Char, s.length = t.length →
    (∀ c ∈ s, c ∈ AA_letters) → (∀ c ∈ t, c ∈ AA_letters) →
    countDistSum s t ≤ 2 * diffCount s t s.length := by
  unfold countDistSum
  induction s with
  | nil =>
    intro t hlen _ _
    have ht : t = [] := List.length_eq_zero.mp hlen.symm
    subst ht
    simp [countAA]
  | cons a s ih =>
    intro t hlen hs ht
    match t with
    | [] => exact absurd hlen (by simp)
    | b :: t =>
      have hlen' : s.length = t.length := by simpa using hlen
      have hs' : ∀ c ∈ s, c ∈ AA_letters := fun c hc => hs c (by simp [hc])
      have ht' : ∀ c ∈ t, c ∈ AA_letters := fun c hc => ht c (by simp [hc])
      have ha : a ∈ AA_letters := hs a (by simp)
      have hb : b ∈ AA_letters := ht b (by simp)
      have hpt : ∀ aa ∈ AA_letters,
          ((countAA (a :: s) aa : ℤ) - (countAA (b :: t) aa : ℤ)).natAbs
            ≤ ((countAA s aa : ℤ) - (countAA t aa : ℤ)).natAbs +
              ((((if aa = a then 1 else 0) : ℤ)) -
                (((if aa = b then 1 else 0) : ℤ))).natAbs := by
        intro aa _
        rw [countAA_cons, countAA_cons]
        push_cast
        have heq : ((countAA s aa : ℤ) + (if aa = a then 1 else 0))
              - ((countAA t aa : ℤ) + (if aa = b then 1 else 0))
            = ((countAA s aa : ℤ) - (countAA t aa : ℤ)) +
              (((if aa = a then 1 else 0) : ℤ) - ((if aa = b then 1 else 0) : ℤ)) := by
          ring
        rw [heq]
        exact Int.natAbs_add_le _ _
      have hsum : (AA_letters.map
            (fun aa => ((countAA (a :: s) aa : ℤ) - (countAA (b :: t) aa : ℤ)).natAbs)).sum
          ≤ (AA_letters.map
              (fun aa => ((countAA s aa : ℤ) - (countAA t aa : ℤ)).natAbs +
                ((((if aa = a then 1 else 0) : ℤ)) -
                  (((if aa = b then 1 else 0) : ℤ))).natAbs)).sum := by
        apply List.sum_le_sum
        intro aa haa
        exact hpt aa haa
      rw [sum_map_add_nat, ind_pair_sum a b ha hb] at hsum
      calc (AA_letters.map
            (fun aa => ((countAA (a :: s) aa : ℤ) - (countAA (b :: t) aa : ℤ)).natAbs)).sum
          ≤ (AA_letters.map
              (fun aa => ((countAA s aa : ℤ) - (countAA t aa : ℤ)).natAbs)).sum +
              (if a = b then 0 else 2) := hsum
        _ ≤ 2 * diffCount s t s.length + (if a = b then 0 else 2) := by
              exact Nat.add_le_add_right (ih t hlen' hs' ht') _
        _ = 2 * diffCount (a :: s) (b :: t) (a :: s).length := by
              rw [List.length_cons, diffCount_succ]
              by_cases h : a = b <;> simp [h] <;> ring

/-- The Comparator estimate is a lower bound on the true substitution rate
(the safety direction of the spec §4.1 contract). -/
lemma character_distance_le_rate (s t : List Char) (hlen : s.length = t.length)
    (hs : ∀ c ∈ s, c ∈ AA_letters) (ht : ∀ c ∈ t, c ∈ AA_letters)
    (hn : 0 < s.length) :
    character_distance s t ≤ (diffCount s t s.length : ℚ) / (s.length : ℚ) := by
  unfold character_distance
  rw [lenAA_eq_length s hs]
  have hL1 : countDistSum s t ≤ 2 * diffCount s t s.length :=
    L1_le_two_diff s t hlen hs ht
  rw [div_le_div_iff (by positivity) (by positivity : (0 : ℚ) < (s.length : ℚ))]
  have hcast : (countDistSum s t : ℚ) ≤ ((2 * diffCount s t s.length : ℕ) : ℚ) := by
    exact_mod_cast hL1
  calc (countDistSum s t : ℚ) * (s.length : ℚ)
      ≤ ((2 * diffCount s t s.length : ℕ) : ℚ) * (s.length : ℚ) :=
        mul_le_mul_of_nonneg_right hcast (by positivity)
    _ = (diffCount s t s.length : ℚ) * (2 * (s.length : ℚ)) := by push_cast; ring

lemma le_sMax_of_mem : ∀ (l : List (Option ℚ)) (q : ℚ), some q ∈ l →
    ∃ v, sMax l = some v ∧ q ≤ v := by
  intro l
  induction l with
  | nil => intro q h; simp at h
  | cons o l ih =>
    intro q h
    match o with
    | none =>
      have hm : some q ∈ l := by
        rcases List.mem_cons.mp h with h1 | h2
        · exact absurd h1 (by simp)
        · exact h2
      obtain ⟨v, hv, hq⟩ := ih q hm
      exact ⟨v, by simp [sMax, hv], hq⟩
    | some p =>
      rcases List.mem_cons.mp h with h1 | h2
      · have hqp : q = p := by simpa using h1
        subst hqp
        cases hs : sMax l with
        | none => exact ⟨q, by simp [sMax, hs], le_refl q⟩
        | some v => exact ⟨max q v, by simp [sMax, hs], le_max_left q v⟩
      · obtain ⟨v, hv, hq⟩ := ih q h2
        exact ⟨max p v, by simp [sMax, hv], le_trans hq (le_max_right p v)⟩

lemma mem_of_getD_some : ∀ (l : List (Option ℚ)) (j : Nat) (v : ℚ),
    l.getD j none = some v → some v ∈ l := by
  intro l
  induction l with
  | nil => intro j v h; simp [List.getD] at h
  | cons o l ih =>
    intro j v h
    match j with
    | 0 =>
      rw [List.getD_cons_zero] at h
      exact h ▸ List.mem_cons_self o l
    | j + 1 =>
      rw [List.getD_cons_succ] at h
      exact List.mem_cons_of_mem o (ih j v h)

lemma mem_set_self : ∀ (l : List (Option ℚ)) (i : Nat) (x : Option ℚ),
    i < l.length → x ∈ l.set i x := by
  intro l
  induction l with
  | nil => intro i x h; simp at h
  | cons o l ih =>
    intro i x h
    match i with
    | 0 => simp
    | i + 1 =>
      rw [List.set_cons_succ]
      exact List.mem_cons_of_mem o (ih i x (by simpa using h))

lemma procCand_sGroups_length (r : List Char) (n : Nat) (mr : ℚ)
    (st : GState × Nat) (c : Nat × List Char) :
    ((procCand r n mr st c).1).sGroups.length = st.1.sGroups.length := by
  unfold procCand
  by_cases h : ((diffCount r c.2 n : ℚ) / (n : ℚ) < mr) <;> simp [h]

lemma foldl_procCand_sGroups_length (r : List Char) (n : Nat) (mr : ℚ) :
    ∀ (cands : List (Nat × List Char)) (st : GState × Nat),
    ((cands.foldl (procCand r n mr) st).1).sGroups.length = st.1.sGroups.length := by
  intro cands
  induction cands with
  | nil => intro st; rfl
  | cons c cands ih =>
    intro st
    rw [List.foldl_cons, ih, procCand_sGroups_length]

/-! ### Claim C1 -/

/-- C1 (amended): for a table of exactly two equal-length amino-acid
sequences, `group_mutations` puts them in the same group iff their
substitution rate is strictly below `max_rate`.  (The claim's unrestricted
"for every pair" version is refuted by `C1_counterexample`.) -/
theorem C1_two_records_same_group_iff (s t : List Char) (mr : ℚ)
    (hlen : s.length = t.length) (hn : 0 < s.length)
    (hs : ∀ c ∈ s, c ∈ AA_letters) (ht : ∀ c ∈ t, c ∈ AA_letters) :
    (sameGroupB (group_mutations [s, t] mr) 0 1 = true ↔
      (diffCount s t s.length : ℚ) / (s.length : ℚ) < mr) := by
  have ls : lenAA s = s.length := lenAA_eq_length s hs
  have lt' : lenAA t = t.length := lenAA_eq_length t ht
  have hlt : lenAA t = lenAA s := by rw [ls, lt', hlen]
  have hcand0 : candidates [s, t] 0 = [(1, t)] := by
    unfold candidates
    show List.filter _ [(0, s), (1, t)] = [(1, t)]
    simp [hlt]
  have hcand1 : candidates [s, t] 1 = [(0, s)] := by
    unfold candidates
    show List.filter _ [(0, s), (1, t)] = [(0, s)]
    simp [hlt]
  have hgm : group_mutations [s, t] mr =
      (procRef [s, t] mr (procRef [s, t] mr (initGState 2) 0) 1).sGroups := by
    have hlen2 : ([s, t] : List (List Char)).length = 2 := rfl
    unfold group_mutations
    rw [hlen2, show List.range 2 = [0, 1] from rfl, List.foldl_cons,
      List.foldl_cons, List.foldl_nil]
  by_cases hr : (diffCount s t s.length : ℚ) / (s.length : ℚ) < mr
  · have hd : character_distance s t < mr :=
      lt_of_le_of_lt (character_distance_le_rate s t hlen hs ht hn) hr
    have hfc : filteredCandidates [s, t] mr 0 = [(1, t)] := by
      rw [filteredCandidates, hcand0]
      simp [hd]
    have hfold : (filteredCandidates [s, t] mr 0).foldl
        (procCand ([s, t].getD 0 []) (lenAA ([s, t].getD 0 [])) mr)
        (initGState 2, 0) = (⟨[none, some 0], [1], some 0⟩, 1) := by
      rw [hfc]
      show procCand s (lenAA s) mr (initGState 2, 0) (1, t) = _
      unfold procCand
      rw [ls, if_pos hr]
      rfl
    have hA : procRef [s, t] mr (initGState 2) 0 =
        ⟨[some 0, some 0], [1, 0], some 1⟩ := by
      unfold procRef
      rw [if_neg (show ¬(0 ∈ (initGState 2).idxOut) by simp [initGState])]
      simp only [hfold]
      norm_num [initGState, advanceCounter, qeqOpt]
    have hB : procRef [s, t] mr (⟨[some 0, some 0], [1, 0], some 1⟩ : GState) 1 =
        ⟨[some 0, some 0], [1, 0], some 1⟩ := by
      unfold procRef
      rw [if_pos (by simp)]
    rw [hgm, hA, hB]
    simpa [sameGroupB] using hr
  · have hfold0 : (filteredCandidates [s, t] mr 0).foldl
        (procCand ([s, t].getD 0 []) (lenAA ([s, t].getD 0 [])) mr)
        (initGState 2, 0) = (initGState 2, 0) := by
      by_cases hd : character_distance s t < mr
      · have hfc : filteredCandidates [s, t] mr 0 = [(1, t)] := by
          rw [filteredCandidates, hcand0]
          simp [hd]
        rw [hfc]
        show procCand s (lenAA s) mr (initGState 2, 0) (1, t) = _
        unfold procCand
        rw [ls, if_neg hr]
      · have hfc : filteredCandidates [s, t] mr 0 = [] := by
          rw [filteredCandidates, hcand0]
          simp [hd]
        rw [hfc]
        rfl
    have hA : procRef [s, t] mr (initGState 2) 0 =
        ⟨[none, none], [0], some 0⟩ := by
      unfold procRef
      rw [if_neg (show ¬(0 ∈ (initGState 2).idxOut) by simp [initGState])]
      simp only [hfold0]
      norm_num [initGState]
      rfl
    have hrt : ¬((diffCount t s (lenAA t) : ℚ) / (lenAA t : ℚ) < mr) := by
      rw [lt', ← hlen, diffCount_comm, ← ls]
      rw [ls]
      exact hr
    have hfold1 : (filteredCandidates [s, t] mr 1).foldl
        (procCand ([s, t].getD 1 []) (lenAA ([s, t].getD 1 [])) mr)
        ((⟨[none, none], [0], some 0⟩ : GState), 0) =
        ((⟨[none, none], [0], some 0⟩ : GState), 0) := by
      by_cases hd : character_distance t s < mr
      · have hfc : filteredCandidates [s, t] mr 1 = [(0, s)] := by
          rw [filteredCandidates, hcand1]
          simp [hd]
        rw [hfc]
        show procCand t (lenAA t) mr (⟨[none, none], [0], some 0⟩, 0) (0, s) = _
        unfold procCand
        rw [if_neg hrt]
      · have hfc : filteredCandidates [s, t] mr 1 = [] := by
          rw [filteredCandidates, hcand1]
          simp [hd]
        rw [hfc]
        rfl
    have hB : procRef [s, t] mr (⟨[none, none], [0], some 0⟩ : GState) 1 =
        ⟨[none, none], [0, 1], some 0⟩ := by
      unfold procRef
      rw [if_neg (by simp)]
      simp only [hfold1]
      norm_num
    rw [hgm, hA, hB]
    simpa [sameGroupB] using hr

/-! ### Evaluation helpers for concrete `group_mutations` runs
(`ℚ` arithmetic is not kernel-reducible, so concrete runs are evaluated
through these step lemmas plus `norm_num`). -/

lemma procRef_skip (recs : List (List Char)) (mr : ℚ) (g : GState) (id : Nat)
    (h : id ∈ g.idxOut) : procRef recs mr g id = g := by
  unfold procRef
  rw [if_pos h]

lemma procRef_go (recs : List (List Char)) (mr : ℚ) (g : GState) (id : Nat)
    (out : GState × Nat) (h : ¬ id ∈ g.idxOut)
    (hf : (filteredCandidates recs mr id).foldl
      (procCand (recs.getD id []) (lenAA (recs.getD id [])) mr) (g, 0) = out) :
    procRef recs mr g id =
      if out.2 ≠ 0 then
        ⟨out.1.sGroups.set id out.1.groupId, out.1.idxOut ++ [id],
          advanceCounter (out.1.sGroups.set id out.1.groupId) out.1.groupId⟩
      else ⟨out.1.sGroups, out.1.idxOut ++ [id], out.1.groupId⟩ := by
  unfold procRef
  rw [if_neg h]
  simp only [hf]

lemma procCand_pos (refSeq : List Char) (n : Nat) (mr : ℚ) (g : GState) (k : Nat)
    (c : Nat × List Char) (h : (diffCount refSeq c.2 n : ℚ) / (n : ℚ) < mr) :
    procCand refSeq n mr (g, k) c =
      (⟨g.sGroups.set c.1
          (if c.1 ∈ g.idxOut then g.sGroups.getD c.1 none else g.groupId),
        g.idxOut ++ [c.1],
        if c.1 ∈ g.idxOut then g.sGroups.getD c.1 none else g.groupId⟩, k + 1) := by
  unfold procCand
  rw [if_pos h]

lemma procCand_neg (refSeq : List Char) (n : Nat) (mr : ℚ) (g : GState) (k : Nat)
    (c : Nat × List Char) (h : ¬ ((diffCount refSeq c.2 n : ℚ) / (n : ℚ) < mr)) :
    procCand refSeq n mr (g, k) c = (g, k) := by
  unfold procCand
  rw [if_neg h]

lemma cdist_lt_iff (s t : List Char) (a b : ℕ) (mr : ℚ)
    (h1 : countDistSum s t = a) (h2 : lenAA s = b) (hb : 0 < b) :
    (character_distance s t < mr ↔ (a : ℚ) < mr * (2 * (b : ℚ))) := by
  rw [character_distance, h1, h2]
  have hbq : (0 : ℚ) < (b : ℚ) := by exact_mod_cast hb
  have hc : (0 : ℚ) < 2 * (b : ℚ) := by linarith
  exact div_lt_iff hc

/-- Concrete length-10 sequences exercising `group_mutations` with
`max_rate = 1/4` (a pair is accepted iff it differs in at most 2 of the 10
positions). -/
def gSeq0 : List Char := List.replicate 10 'A'

def gSeq1 : List Char := ['C', 'C', 'D', 'D'] ++ List.replicate 6 'A'

def gSeq2 : List Char := ['C', 'C', 'D', 'D', 'E'] ++ List.replicate 5 'A'

def gSeq3 : List Char := ['C', 'C'] ++ List.replicate 8 'A'

def gSeq4 : List Char := List.replicate 10 'H'

def gSeq5 : List Char := List.replicate 9 'H' ++ ['C']

def gCexRecs : List (List Char) :=
  [gSeq0, gSeq1, gSeq2, gSeq3, gSeq4, gSeq5]

lemma gCex_fold0 : (filteredCandidates gCexRecs (1 / 4) 0).foldl
    (procCand (gCexRecs.getD 0 []) (lenAA (gCexRecs.getD 0 [])) (1 / 4))
    (initGState 6, 0) =
    (⟨[none, none, none, some 0, none, none], [3], some 0⟩, 1) := by
  have e0 : gCexRecs.getD 0 [] = gSeq0 := rfl
  have d1 : ¬ (character_distance gSeq0 gSeq1 < 1 / 4) := by
    rw [cdist_lt_iff gSeq0 gSeq1 8 10 (1 / 4) rfl rfl (by norm_num)]
    norm_num
  have d2 : ¬ (character_distance gSeq0 gSeq2 < 1 / 4) := by
    rw [cdist_lt_iff gSeq0 gSeq2 10 10 (1 / 4) rfl rfl (by norm_num)]
    norm_num
  have d3 : character_distance gSeq0 gSeq3 < 1 / 4 := by
    rw [cdist_lt_iff gSeq0 gSeq3 4 10 (1 / 4) rfl rfl (by norm_num)]
    norm_num
  have d4 : ¬ (character_distance gSeq0 gSeq4 < 1 / 4) := by
    rw [cdist_lt_iff gSeq0 gSeq4 20 10 (1 / 4) rfl rfl (by norm_num)]
    norm_num
  have d5 : ¬ (character_distance gSeq0 gSeq5 < 1 / 4) := by
    rw [cdist_lt_iff gSeq0 gSeq5 20 10 (1 / 4) rfl rfl (by norm_num)]
    norm_num
  have hcands : candidates gCexRecs 0 =
      [(1, gSeq1), (2, gSeq2), (3, gSeq3), (4, gSeq4), (5, gSeq5)] := by decide
  have hfc : filteredCandidates gCexRecs (1 / 4) 0 = [(3, gSeq3)] := by
    rw [filteredCandidates, hcands, e0]
    simp only [List.filter_cons, List.filter_nil, decide_eq_true_eq,
      if_neg d1, if_neg d2, if_pos d3, if_neg d4, if_neg d5]
  have hdiff : ((diffCount gSeq0 gSeq3 (lenAA gSeq0) : ℚ) / ((lenAA gSeq0 : ℕ) : ℚ)
      < 1 / 4) := by
    norm_num [show lenAA gSeq0 = 10 from rfl,
      show diffCount gSeq0 gSeq3 10 = 2 from rfl]
  rw [hfc, List.foldl_cons, List.foldl_nil, e0,
    procCand_pos gSeq0 (lenAA gSeq0) (1 / 4) (initGState 6) 0 (3, gSeq3) hdiff]
  rfl

lemma gCex_step0 : procRef gCexRecs (1 / 4) (initGState 6) 0 =
    ⟨[some 0, none, none, some 0, none, none], [3, 0], some 1⟩ := by
  rw [procRef_go gCexRecs (1 / 4) (initGState 6) 0 _ (by simp [initGState])
    gCex_fold0]
  norm_num [advanceCounter, qeqOpt, sMax]

lemma gCex_step1 : procRef gCexRecs (1 / 4)
    (⟨[some 0, none, none, some 0, none, none], [3, 0], some 1⟩ : GState) 1 =
    ⟨[some 0, some 0, some 1, some 0, none, none], [3, 0, 2, 3, 1], some 1⟩ := by
  have e1 : gCexRecs.getD 1 [] = gSeq1 := rfl
  have d0 : ¬ (character_distance gSeq1 gSeq0 < 1 / 4) := by
    rw [cdist_lt_iff gSeq1 gSeq0 8 10 (1 / 4) rfl rfl (by norm_num)]
    norm_num
  have d2 : character_distance gSeq1 gSeq2 < 1 / 4 := by
    rw [cdist_lt_iff gSeq1 gSeq2 2 10 (1 / 4) rfl rfl (by norm_num)]
    norm_num
  have d3 : character_distance gSeq1 gSeq3 < 1 / 4 := by
    rw [cdist_lt_iff gSeq1 gSeq3 4 10 (1 / 4) rfl rfl (by norm_num)]
    norm_num
  have d4 : ¬ (character_distance gSeq1 gSeq4 < 1 / 4) := by
    rw [cdist_lt_iff gSeq1 gSeq4 20 10 (1 / 4) rfl rfl (by norm_num)]
    norm_num
  have d5 : ¬ (character_distance gSeq1 gSeq5 < 1 / 4) := by
    rw [cdist_lt_iff gSeq1 gSeq5 18 10 (1 / 4) rfl rfl (by norm_num)]
    norm_num
  have hcands : candidates gCexRecs 1 =
      [(0, gSeq0), (2, gSeq2), (3, gSeq3), (4, gSeq4), (5, gSeq5)] := by decide
  have hfc : filteredCandidates gCexRecs (1 / 4) 1 = [(2, gSeq2), (3, gSeq3)] := by
    rw [filteredCandidates, hcands, e1]
    simp only [List.filter_cons, List.filter_nil, decide_eq_true_eq,
      if_neg d0, if_pos d2, if_pos d3, if_neg d4, if_neg d5]
  have hdiff2 : ((diffCount gSeq1 gSeq2 (lenAA gSeq1) : ℚ) /
      ((lenAA gSeq1 : ℕ) : ℚ) < 1 / 4) := by
    norm_num [show lenAA gSeq1 = 10 from rfl,
      show diffCount gSeq1 gSeq2 10 = 1 from rfl]
  have hdiff3 : ((diffCount gSeq1 gSeq3 (lenAA gSeq1) : ℚ) /
      ((lenAA gSeq1 : ℕ) : ℚ) < 1 / 4) := by
    norm_num [show lenAA gSeq1 = 10 from rfl,
      show diffCount gSeq1 gSeq3 10 = 2 from rfl]
  have hc1 : procCand gSeq1 (lenAA gSeq1) (1 / 4)
      ((⟨[some 0, none, none, some 0, none, none], [3, 0], some 1⟩ : GState), 0)
      (2, gSeq2) =
      (⟨[some 0, none, some 1, some 0, none, none], [3, 0, 2], some 1⟩, 1) := by
    rw [procCand_pos gSeq1 (lenAA gSeq1) (1 / 4) _ 0 (2, gSeq2) hdiff2]
    rfl
  have hc2 : procCand gSeq1 (lenAA gSeq1) (1 / 4)
      ((⟨[some 0, none, some 1, some 0, none, none], [3, 0, 2], some 1⟩ : GState), 1)
      (3, gSeq3) =
      (⟨[some 0, none, some 1, some 0, none, none], [3, 0, 2, 3], some 0⟩, 2) := by
    rw [procCand_pos gSeq1 (lenAA gSeq1) (1 / 4) _ 1 (3, gSeq3) hdiff3]
    rfl
  have hf : (filteredCandidates gCexRecs (1 / 4) 1).foldl
      (procCand (gCexRecs.getD 1 []) (lenAA (gCexRecs.getD 1 [])) (1 / 4))
      ((⟨[some 0, none, none, some 0, none, none], [3, 0], some 1⟩ : GState), 0) =
      (⟨[some 0, none, some 1, some 0, none, none], [3, 0, 2, 3], some 0⟩, 2) := by
    rw [hfc, List.foldl_cons, List.foldl_cons, List.foldl_nil, e1, hc1, hc2]
  rw [procRef_go gCexRecs (1 / 4) _ 1 _ (by simp) hf]
  norm_num [advanceCounter, qeqOpt, sMax]

lemma gCex_step4 : procRef gCexRecs (1 / 4)
    (⟨[some 0, some 0, some 1, some 0, none, none], [3, 0, 2, 3, 1], some 1⟩ : GState) 4 =
    ⟨[some 0, some 0, some 1, some 0, some 1, some 1], [3, 0, 2, 3, 1, 5, 4], some 2⟩ := by
  have e4 : gCexRecs.getD 4 [] = gSeq4 := rfl
  have d0 : ¬ (character_distance gSeq4 gSeq0 < 1 / 4) := by
    rw [cdist_lt_iff gSeq4 gSeq0 20 10 (1 / 4) rfl rfl (by norm_num)]
    norm_num
  have d1 : ¬ (character_distance gSeq4 gSeq1 < 1 / 4) := by
    rw [cdist_lt_iff gSeq4 gSeq1 20 10 (1 / 4) rfl rfl (by norm_num)]
    norm_num
  have d2 : ¬ (character_distance gSeq4 gSeq2 < 1 / 4) := by
    rw [cdist_lt_iff gSeq4 gSeq2 20 10 (1 / 4) rfl rfl (by norm_num)]
    norm_num
  have d3 : ¬ (character_distance gSeq4 gSeq3 < 1 / 4) := by
    rw [cdist_lt_iff gSeq4 gSeq3 20 10 (1 / 4) rfl rfl (by norm_num)]
    norm_num
  have d5 : character_distance gSeq4 gSeq5 < 1 / 4 := by
    rw [cdist_lt_iff gSeq4 gSeq5 2 10 (1 / 4) rfl rfl (by norm_num)]
    norm_num
  have hcands : candidates gCexRecs 4 =
      [(0, gSeq0), (1, gSeq1), (2, gSeq2), (3, gSeq3), (5, gSeq5)] := by decide
  have hfc : filteredCandidates gCexRecs (1 / 4) 4 = [(5, gSeq5)] := by
    rw [filteredCandidates, hcands, e4]
    simp only [List.filter_cons, List.filter_nil, decide_eq_true_eq,
      if_neg d0, if_neg d1, if_neg d2, if_neg d3, if_pos d5]
  have hdiff5 : ((diffCount gSeq4 gSeq5 (lenAA gSeq4) : ℚ) /
      ((lenAA gSeq4 : ℕ) : ℚ) < 1 / 4) := by
    norm_num [show lenAA gSeq4 = 10 from rfl,
      show diffCount gSeq4 gSeq5 10 = 1 from rfl]
  have hf : (filteredCandidates gCexRecs (1 / 4) 4).foldl
      (procCand (gCexRecs.getD 4 []) (lenAA (gCexRecs.getD 4 [])) (1 / 4))
      ((⟨[some 0, some 0, some 1, some 0, none, none], [3, 0, 2, 3, 1], some 1⟩ :
        GState), 0) =
      (⟨[some 0, some 0, some 1, some 0, none, some 1],
        [3, 0, 2, 3, 1, 5], some 1⟩, 1) := by
    rw [hfc, List.foldl_cons, List.foldl_nil, e4,
      procCand_pos gSeq4 (lenAA gSeq4) (1 / 4) _ 0 (5, gSeq5) hdiff5]
    rfl
  rw [procRef_go gCexRecs (1 / 4) _ 4 _ (by simp) hf]
  norm_num [advanceCounter, qeqOpt, sMax, max_def]

lemma gCex_mid : (List.range 2).foldl (procRef gCexRecs (1 / 4)) (initGState 6) =
    ⟨[some 0, some 0, some 1, some 0, none, none], [3, 0, 2, 3, 1], some 1⟩ := by
  rw [show List.range 2 = [0, 1] from rfl, List.foldl_cons, List.foldl_cons,
    List.foldl_nil, gCex_step0, gCex_step1]

lemma gCex_run : (List.range 6).foldl (procRef gCexRecs (1 / 4)) (initGState 6) =
    ⟨[some 0, some 0, some 1, some 0, some 1, some 1],
      [3, 0, 2, 3, 1, 5, 4], some 2⟩ := by
  rw [show List.range 6 = [0, 1, 2, 3, 4, 5] from rfl]
  simp only [List.foldl_cons, List.foldl_nil]
  rw [gCex_step0, gCex_step1,
    procRef_skip gCexRecs (1 / 4) _ 2 (by simp),
    procRef_skip gCexRecs (1 / 4) _ 3 (by simp),
    gCex_step4,
    procRef_skip gCexRecs (1 / 4) _ 5 (by simp)]

lemma gCex_groups : group_mutations gCexRecs (1 / 4) =
    [some 0, some 0, some 1, some 0, some 1, some 1] := by
  unfold group_mutations
  rw [show gCexRecs.length = 6 from rfl, gCex_run]

/-- C1 (counterexample): in the 6-record table `gCexRecs` with
`max_rate = 1/4`, records 1 and 2 have equal length and substitution
rate 1/10 < 1/4, yet `group_mutations` assigns them different group
identifiers (while comparing candidates of reference 1, an already-grouped
candidate resets the running counter after record 2 was labelled with it),
refuting "same group iff rate < max_rate". -/
theorem C1_counterexample :
    gSeq1.length = gSeq2.length ∧
    (diffCount gSeq1 gSeq2 gSeq1.length : ℚ) / (gSeq1.length : ℚ) < 1 / 4 ∧
    sameGroupB (group_mutations gCexRecs (1 / 4)) 1 2 = false := by
  refine ⟨rfl, ?_, ?_⟩
  · norm_num [show gSeq1.length = 10 from rfl,
      show diffCount gSeq1 gSeq2 10 = 1 from rfl]
  · rw [gCex_groups]
    show ((0 : ℚ) == (1 : ℚ)) = false
    rw [beq_eq_false_iff_ne]
    norm_num

/-- C1 (witness): the spec's two worked examples, obtained from
`C1_two_records_same_group_iff`: "AAAAA" and "AAAAB" are grouped at
`max_rate = 3/10` and not grouped at `max_rate = 1/10`. -/
theorem C1_witness :
    sameGroupB (group_mutations [List.replicate 5 'A',
      ['A', 'A', 'A', 'A', 'B']] (3 / 10)) 0 1 = true ∧
    sameGroupB (group_mutations [List.replicate 5 'A',
      ['A', 'A', 'A', 'A', 'B']] (1 / 10)) 0 1 = false := by
  constructor
  · exact (C1_two_records_same_group_iff (List.replicate 5 'A')
      ['A', 'A', 'A', 'A', 'B'] (3 / 10) (by decide) (by decide)
      (by decide) (by decide)).mpr
      (by norm_num [show (List.replicate 5 'A').length = 5 from rfl,
        show diffCount (List.replicate 5 'A') ['A', 'A', 'A', 'A', 'B'] 5 = 1 from rfl])
  · have h := C1_two_records_same_group_iff (List.replicate 5 'A')
      ['A', 'A', 'A', 'A', 'B'] (1 / 10) (by decide) (by decide)
      (by decide) (by decide)
    cases hb : sameGroupB (group_mutations [List.replicate 5 'A',
        ['A', 'A', 'A', 'A', 'B']] (1 / 10)) 0 1 with
    | false => rfl
    | true =>
      exact absurd (h.mp hb)
        (by norm_num [show (List.replicate 5 'A').length = 5 from rfl,
          show diffCount (List.replicate 5 'A') ['A', 'A', 'A', 'A', 'B'] 5 = 1 from rfl])

/-! ### Claims C7 and C8 -/

lemma advanceCounter_eq_max (sg : List (Option ℚ)) (gid : Option ℚ)
    (hmem : ∀ q, gid = some q → some q ∈ sg)
    (hadopt : gid ≠ some 0 ∨ sMax sg = some 0) :
    advanceCounter sg gid = (sMax sg).map (· + 1) := by
  cases gid with
  | none => simp [advanceCounter, qeqOpt]
  | some q =>
    obtain ⟨v, hv, hqv⟩ := le_sMax_of_mem sg q (hmem q rfl)
    by_cases h0 : q = 0
    · subst h0
      rcases hadopt with hL | hR
      · exact absurd rfl hL
      · rw [advanceCounter, hR]
        simp [qeqOpt]
    · by_cases hqv2 : q = v
      · rw [advanceCounter, hv, ← hqv2]
        simp [qeqOpt, h0]
      · rw [advanceCounter, hv]
        have hb1 : qeqOpt (some q) (some 0) = false := by simp [qeqOpt, h0]
        have hb2 : qeqOpt (some q) (some v) = false := by simp [qeqOpt, hqv2]
        rw [hb1, hb2]
        simp

/-- C7 (amended): after a reference with at least one accepted mutation,
the counter is advanced to `max(existing group ids) + 1` PROVIDED the id
just assigned is not a re-adopted `0` while larger group ids exist (in that
case the code runs `group_id += 1`, yielding `1`, which can equal an
existing id — see `C7_counterexample`).  Under the proviso, the fresh
counter is strictly larger than every assigned group id. -/
theorem C7_counter_advance (recs : List (List Char)) (mr : ℚ) (g : GState)
    (id : Nat) (hid : ¬ id ∈ g.idxOut) (hlen : id < g.sGroups.length)
    (out : GState × Nat)
    (hf : (filteredCandidates recs mr id).foldl
      (procCand (recs.getD id []) (lenAA (recs.getD id [])) mr) (g, 0) = out)
    (hnm : out.2 ≠ 0)
    (hadopt : out.1.groupId ≠ some 0 ∨
      sMax (out.1.sGroups.set id out.1.groupId) = some 0) :
    (procRef recs mr g id).groupId =
      (sMax (out.1.sGroups.set id out.1.groupId)).map (· + 1) ∧
    (∀ j v, (procRef recs mr g id).sGroups.getD j none = some v →
      ∀ w, (procRef recs mr g id).groupId = some w → v < w) := by
  have hres : procRef recs mr g id =
      ⟨out.1.sGroups.set id out.1.groupId, out.1.idxOut ++ [id],
        advanceCounter (out.1.sGroups.set id out.1.groupId) out.1.groupId⟩ := by
    rw [procRef_go recs mr g id out hid hf, if_pos hnm]
  have hlenout : out.1.sGroups.length = g.sGroups.length := by
    have h := foldl_procCand_sGroups_length (recs.getD id [])
      (lenAA (recs.getD id [])) mr (filteredCandidates recs mr id) (g, 0)
    rw [hf] at h
    exact h
  have hmain : advanceCounter (out.1.sGroups.set id out.1.groupId) out.1.groupId =
      (sMax (out.1.sGroups.set id out.1.groupId)).map (· + 1) :=
    advanceCounter_eq_max _ _
      (fun q hq => by
        rw [← hq]
        exact mem_set_self _ id _ (by rw [hlenout]; exact hlen))
      hadopt
  constructor
  · rw [hres]
    exact hmain
  · intro j v hj w hw
    rw [hres] at hj hw
    simp only at hj hw
    rw [hmain] at hw
    have hmemv : some v ∈ out.1.sGroups.set id out.1.groupId :=
      mem_of_getD_some _ j v hj
    obtain ⟨m, hm, hvm⟩ := le_sMax_of_mem _ v hmemv
    rw [hm] at hw
    have : w = m + 1 := by
      simpa using hw.symm
    rw [this]
    linarith

/-- C7 (counterexample): in `gCexRecs` with `max_rate = 1/4`, after the
first two references the counter holds `1` while the maximum existing group
id is already `1` (so the counter was NOT advanced to max+1 = 2), and in the
final grouping the counter value `1` is reassigned to the fresh group
{4, 5} although record 2 already carries group id `1` — records 2 and 4
differ in all 10 positions yet share a group id. -/
theorem C7_counterexample :
    ((List.range 2).foldl (procRef gCexRecs (1 / 4)) (initGState 6)).groupId
      = some 1 ∧
    sMax ((List.range 2).foldl (procRef gCexRecs (1 / 4))
      (initGState 6)).sGroups = some 1 ∧
    ((List.range 2).foldl (procRef gCexRecs (1 / 4)) (initGState 6)).groupId
      ≠ some 2 ∧
    (group_mutations gCexRecs (1 / 4)).getD 2 none = some 1 ∧
    (group_mutations gCexRecs (1 / 4)).getD 4 none = some 1 ∧
    diffCount gSeq2 gSeq4 (lenAA gSeq2) = 10 := by
  rw [gCex_mid, gCex_groups]
  refine ⟨rfl, ?_, ?_, rfl, rfl, by decide⟩
  · norm_num [sMax, max_def]
  · intro h
    have : (1 : ℚ) = 2 := by simpa using h
    norm_num at this

/-- C7 (witness): `C7_counter_advance` applied to the first reference of
`gCexRecs`: reference 0 adopts group id 0 with max id 0, and the counter is
advanced to 0 + 1. -/
theorem C7_witness :
    (procRef gCexRecs (1 / 4) (initGState 6) 0).groupId =
      (sMax (([none, none, none, some 0, none, none] :
        List (Option ℚ)).set 0 (some 0))).map (· + 1) :=
  (C7_counter_advance gCexRecs (1 / 4) (initGState 6) 0
    (by simp [initGState]) (by norm_num [initGState])
    (⟨[none, none, none, some 0, none, none], [3], some 0⟩, 1)
    gCex_fold0 (by norm_num)
    (Or.inr (by norm_num [sMax, max_def, List.set]))).1

/-- C8 (amended): the Comparator estimate is a LOWER bound on the true
substitution rate (not an upper bound on the substitution count as the
claim says — see `C8_counterexample`): the pre-filter keeps exactly the
candidates with estimate below `max_rate`, and consequently never discards
a candidate whose true substitution rate is below `max_rate`. -/
theorem C8_prefilter_safety (s t : List Char) (mr : ℚ)
    (hlen : s.length = t.length) (hn : 0 < s.length)
    (hs : ∀ c ∈ s, c ∈ AA_letters) (ht : ∀ c ∈ t, c ∈ AA_letters) :
    character_distance s t ≤ (diffCount s t s.length : ℚ) / (s.length : ℚ) ∧
    ((diffCount s t s.length : ℚ) / (s.length : ℚ) < mr →
      character_distance s t < mr) ∧
    (∀ (recs : List (List Char)) (id : Nat) (p : Nat × List Char),
      p ∈ filteredCandidates recs mr id ↔
        p ∈ candidates recs id ∧
          character_distance (recs.getD id []) p.2 < mr) := by
  refine ⟨character_distance_le_rate s t hlen hs ht hn,
    fun h => lt_of_le_of_lt (character_distance_le_rate s t hlen hs ht hn) h,
    fun recs id p => ?_⟩
  simp [filteredCandidates, List.mem_filter]

/-- C8 (counterexample): for the equal-length sequences "AB" and "BA" the
count-difference estimate is 0 while the true substitution count is 2, so
the estimate is NOT an upper bound on the true substitution count. -/
theorem C8_counterexample :
    2 * character_distance ['A', 'B'] ['B', 'A'] <
      (diffCount ['A', 'B'] ['B', 'A'] 2 : ℚ) := by
  norm_num [character_distance,
    show countDistSum ['A', 'B'] ['B', 'A'] = 0 from rfl,
    show lenAA ['A', 'B'] = 2 from rfl,
    show diffCount ['A', 'B'] ['B', 'A'] 2 = 2 from rfl]

/-- C8 (witness): `C8_prefilter_safety` instantiated at "AAAAA"/"AAAAB". -/
theorem C8_witness :
    character_distance (List.replicate 5 'A') ['A', 'A', 'A', 'A', 'B'] ≤
      (diffCount (List.replicate 5 'A') ['A', 'A', 'A', 'A', 'B']
        (List.replicate 5 'A').length : ℚ) /
        ((List.replicate 5 'A').length : ℚ) :=
  (C8_prefilter_safety (List.replicate 5 'A') ['A', 'A', 'A', 'A', 'B']
    (3 / 10) (by decide) (by decide) (by decide) (by decide)).1

/-! ### Sequence Windower (`truncate_sequence`, src lines 219-293) -/

/-- The `settings["truncate"]` mode: `"single"`, `"split"`, or `None`. -/
inductive TMode
  | single
  | split
  deriving Repr, DecidableEq

/-- The `settings` dict consumed by the Windower (spec §4.4): `max_length`,
`truncate`, `overlap`, `sample_splits`. -/
structure TSettings where
  max_length : Option Nat
  truncate : Option TMode
  overlap : ℚ
  sample_splits : Option Nat
  deriving Repr, DecidableEq

/-- Python exceptions that `truncate_sequence` can raise. -/
inductive TErr
  | assertNegLoc   -- "Locations cannot be negative." (src line 229)
  | assertOverlap  -- "Overlap in [0,1]" (src line 232)
  | valueError     -- np.random.choice on an empty list / empty randint range
  | typeError      -- arithmetic with max_length = None
  | nameError      -- mode None: `prot_seq_trunc` is never bound (src line 293)
  deriving Repr, DecidableEq

/-- `np.arange(a, a + n)`. -/
def pyArange (a : ℤ) (n : Nat) : List ℤ :=
  (List.range n).map (fun k => a + (k : ℤ))

/-- `truncate_sequence(prot_seq, settings, diff_locations, T)` (src lines
219-293).  Randomness oracles: `c` selects the preferred position
(`np.random.choice(diff_locations)` draws `dl[c % dl.length]`), `z` is the
rounded centred normal draw (`np.rint(normal(loc=μ, scale=M//2)) = μ + z`
with integer `μ`; every `z : ℤ` is a possible draw when `M//2 > 0`), `u`
drives `np.random.randint(0, hi)` (drawing `u % hi`), and `pick` is the
index list drawn by `np.random.choice(n, size=k, replace=False, p)` in the
"split" down-selection.  The temperature-weighted probabilities `p` affect
only the distribution, never the support, so they do not appear.  Returns
the window list and the per-window position-id arrays. -/
def truncate_sequence (seq : List Char) (st : TSettings) (dl : Option (List ℤ))
    (c : Nat) (z : ℤ) (u : Nat) (pick : List Nat) :
    Except TErr (List (List Char) × List (List ℤ)) :=
  if ((dl.getD []).any (fun loc => loc < 0)) then .error .assertNegLoc
  else if ¬ (0 ≤ st.overlap ∧ st.overlap < 1) then .error .assertOverlap
  else
    match st.truncate with
    | some .single =>
      match st.max_length with
      | none => .error .typeError
      | some M =>
        match dl with
        | some locs =>
          if locs.isEmpty then .error .valueError
          else
            let loc := locs.getD (c % locs.length) 0
            let sampleStart : ℤ := max 0 (loc - ((M / 2 : ℕ) : ℤ)) + z
            -- np.clip(x, lo, hi) = min (max x lo) hi
            let idxStart : ℤ := min (max sampleStart 0) ((seq.length : ℤ) - 1)
            .ok ([(seq.drop idxStart.toNat).take M], [pyArange idxStart M])
        | none =>
          if (seq.length : ℤ) - (M : ℤ) + 1 ≤ 0 then .error .valueError
          else
            let idxStart : Nat := u % (seq.length - M + 1)
            .ok ([(seq.drop idxStart).take M], [pyArange (idxStart : ℤ) M])
    | some .split =>
      match st.max_length with
      | none => .error .typeError
      | some M =>
        let padded := 'X' :: (seq ++ ['X'])
        let jump := (⌊(M : ℚ) * (1 - st.overlap)⌋).toNat
        if jump = 0 then .error .valueError
        else
          let stopAt : ℤ := ⌈((padded.length : ℚ) - (M : ℚ)) / (jump : ℚ)⌉
          let idxSplit : List Nat := (List.range (stopAt + 1).toNat).map (jump * ·)
          let trunc := idxSplit.map (fun j => (padded.drop j).take M)
          let posIds := idxSplit.map (fun (j : ℕ) =>
            pyArange (j : ℤ) (min (j + M) padded.length - j))
          match st.sample_splits with
          | some k =>
            if k < trunc.length then
              .ok (pick.map (fun j => trunc.getD j []),
                pick.map (fun j => posIds.getD j []))
            else .ok (trunc, posIds)
          | none => .ok (trunc, posIds)
    | none => .error .nameError

/-- `get_number_AA(prot_seq, settings)` (src lines 196-217): the estimated
token cost of a record under the current windowing settings.  `none` stands
for the Python value `None` (mode "single" with `max_length` unset) or for
the undefined arithmetic when the stride is zero. -/
def get_number_AA (seq : List Char) (st : TSettings) : Option ℤ :=
  match st.truncate with
  | some .single => st.max_length.map (fun M => (M : ℤ))
  | some .split =>
    match st.max_length with
    | none => none
    | some M =>
      let jump := (⌊(M : ℚ) * (1 - st.overlap)⌋).toNat
      if jump = 0 then none
      else
        let nSplits : ℤ := ⌈((seq.length : ℚ) - (M : ℚ)) / (jump : ℚ)⌉ + 1
        match st.sample_splits with
        | none => some (nSplits * (M : ℤ))
        | some k => some (min nSplits (k : ℤ) * (M : ℤ))
  | none => some (seq.length : ℤ)

/-- The clipped start index of the preferred-position "single" branch
(src lines 238-243). -/
def clipStart (seq : List Char) (M : Nat) (dl : List ℤ) (c : Nat) (z : ℤ) : ℤ :=
  min (max (max 0 (dl.getD (c % dl.length) 0 - ((M / 2 : ℕ) : ℤ)) + z) 0)
    ((seq.length : ℤ) - 1)

/-! ### Claims C3 and C4 -/

/-- C3 (amended): in "single" mode on a sequence of length ≥ max_length,
without preferred positions the window has length exactly `M` and its start
lies in `[0, len − M]`; with (nonnegative, nonempty) preferred positions the
start is only clipped into `[0, len − 1]`, and the window length is
`min M (len − start)`, which is smaller than `M` whenever the clipped start
exceeds `len − M` (see `C3_counterexample`). -/
theorem C3_single_mode_windows (seq : List Char) (M : Nat) (st : TSettings)
    (dl : List ℤ) (c : Nat) (z : ℤ) (u : Nat) (pick : List Nat)
    (hM : st.max_length = some M) (hmode : st.truncate = some TMode.single)
    (hov : 0 ≤ st.overlap ∧ st.overlap < 1)
    (hlen : M ≤ seq.length) (hpos : 0 < seq.length)
    (hdl : ∀ x ∈ dl, 0 ≤ x) (hne : dl ≠ []) :
    (truncate_sequence seq st none c z u pick =
        .ok ([(seq.drop (u % (seq.length - M + 1))).take M],
          [pyArange ((u % (seq.length - M + 1) : ℕ) : ℤ) M]) ∧
      u % (seq.length - M + 1) + M ≤ seq.length ∧
      ((seq.drop (u % (seq.length - M + 1))).take M).length = M) ∧
    (truncate_sequence seq st (some dl) c z u pick =
        .ok ([(seq.drop (clipStart seq M dl c z).toNat).take M],
          [pyArange (clipStart seq M dl c z) M]) ∧
      0 ≤ clipStart seq M dl c z ∧
      clipStart seq M dl c z ≤ (seq.length : ℤ) - 1 ∧
      ((seq.drop (clipStart seq M dl c z).toNat).take M).length =
        min M (seq.length - (clipStart seq M dl c z).toNat)) := by
  have hmod : u % (seq.length - M + 1) ≤ seq.length - M := by
    have := Nat.mod_lt u (show 0 < seq.length - M + 1 by omega)
    omega
  refine ⟨⟨?_, by omega, ?_⟩, ⟨?_, ?_, ?_, ?_⟩⟩
  · unfold truncate_sequence
    rw [if_neg (by simp), if_neg (not_not_intro hov)]
    simp only [hmode, hM]
    rw [if_neg (show ¬ ((seq.length : ℤ) - (M : ℤ) + 1 ≤ 0) by push_cast; omega)]
  · rw [List.length_take, List.length_drop]
    omega
  · unfold truncate_sequence
    rw [if_neg (by
        simp only [Option.getD, List.any_eq_true, not_exists, not_and]
        intro x hx
        simpa using not_lt.mpr (hdl x hx)),
      if_neg (not_not_intro hov)]
    simp only [hmode, hM]
    rw [if_neg (show ¬ (dl.isEmpty = true) by simpa using hne)]
    rfl
  · unfold clipStart
    omega
  · unfold clipStart
    omega
  · rw [List.length_take, List.length_drop]

/-- C3 (counterexample): sequence of length 10, max_length 4, "single" mode
with preferred position 9 and normal draw +2: the clipped start is 9
(len − 1, beyond len − M = 6) and the returned window has length 1, not 4. -/
theorem C3_counterexample :
    truncate_sequence (List.replicate 10 'A')
        ⟨some 4, some TMode.single, 0, none⟩ (some [9]) 0 2 0 [] =
      .ok ([['A']], [[9, 10, 11, 12]]) ∧
    (['A'] : List Char).length ≠ 4 := by
  constructor
  · unfold truncate_sequence
    rw [if_neg (by decide), if_neg (by norm_num)]
    rfl
  · decide

/-- C3 (witness): `C3_single_mode_windows` at a concrete input — sequence
length 10, max_length 4, preferred positions [9], oracles c=0, z=2, u=3. -/
theorem C3_witness :
    (truncate_sequence (List.replicate 10 'A')
        ⟨some 4, some TMode.single, 0, none⟩ none 0 2 3 [] =
      .ok ([(List.replicate 10 'A' |>.drop 3).take 4], [pyArange 3 4]) ∧
      3 + 4 ≤ 10 ∧ ((List.replicate 10 'A' |>.drop 3).take 4).length = 4) ∧
    0 ≤ clipStart (List.replicate 10 'A') 4 [9] 0 2 := by
  have h := C3_single_mode_windows (List.replicate 10 'A') 4
    ⟨some 4, some TMode.single, 0, none⟩ [9] 0 2 3 [] rfl rfl
    (by norm_num) (by norm_num) (by norm_num) (by norm_num) (by simp)
  exact ⟨h.1, h.2.2.1⟩

/-- C4 (amended): calling `truncate_sequence` with the truncate mode unset
(`None`) does NOT return the sequence unmodified: neither the "single" nor
the "split" branch assigns `prot_seq_trunc`, so the final `return` raises an
unbound-local (`NameError`) — provided the two input assertions pass. -/
theorem C4_mode_none_raises (seq : List Char) (st : TSettings)
    (dl : Option (List ℤ)) (c : Nat) (z : ℤ) (u : Nat) (pick : List Nat)
    (hmode : st.truncate = none)
    (hdl : ∀ l, dl = some l → ∀ x ∈ l, 0 ≤ x)
    (hov : 0 ≤ st.overlap ∧ st.overlap < 1) :
    truncate_sequence seq st dl c z u pick = .error .nameError := by
  unfold truncate_sequence
  rw [if_neg (by
      cases dl with
      | none => simp
      | some l =>
        simp only [Option.getD, List.any_eq_true, not_exists, not_and]
        intro x hx
        simpa using not_lt.mpr (hdl l rfl x hx)),
    if_neg (not_not_intro hov)]
  simp only [hmode]

/-- C4 (counterexample): with mode `None` the call fails with the
unbound-name error instead of returning the sequence as the sole window. -/
theorem C4_counterexample :
    truncate_sequence ['A', 'B'] ⟨some 4, none, 0, none⟩ none 0 0 0 [] =
      .error .nameError := by
  unfold truncate_sequence
  rw [if_neg (by decide), if_neg (by norm_num)]

/-- C4 (witness): `C4_mode_none_raises` at a concrete input. -/
theorem C4_witness :
    truncate_sequence ['C', 'D'] ⟨none, none, 0, none⟩ none 1 1 1 [] =
      .error .nameError :=
  C4_mode_none_raises ['C', 'D'] ⟨none, none, 0, none⟩ none 1 1 1 []
    rfl (fun l hl => by cases hl) (by norm_num)

/-! ### Mutation Locator (`locate_mutations`, src lines 117-146) -/

/-- A row of the grouped dataframe consumed by `locate_mutations`: id
(dataframe index label), sequence, tm, the precomputed `len` column and the
group label (`none` = `NaN`). -/
structure LRec where
  id : Nat
  protein_sequence : List Char
  tm : ℚ
  len : Nat
  sub_group : Option ℚ
  deriving Repr, DecidableEq

instance : Inhabited LRec := ⟨⟨0, [], 0, 0, none⟩⟩

/-- Insertion into a sorted rational list. -/
def insertQ (x : ℚ) : List ℚ → List ℚ
  | [] => [x]
  | y :: l => if x ≤ y then x :: y :: l else y :: insertQ x l

/-- Ascending insertion sort on rationals (used for pandas' sorted
`groupby` keys and for the median). -/
def sortQ : List ℚ → List ℚ
  | [] => []
  | x :: l => insertQ x (sortQ l)

/-- `Series.median()` (src line 131): middle element of the sorted values
for odd counts, mean of the two middles for even counts. -/
def medianQ (l : List ℚ) : ℚ :=
  let s := sortQ l
  if l.length % 2 = 1 then s.getD (l.length / 2) 0
  else (s.getD (l.length / 2 - 1) 0 + s.getD (l.length / 2) 0) / 2

/-- `np.argmin(np.abs(tms - median))` (src line 132): index of the FIRST
minimal absolute deviation. -/
def argminAbs (l : List ℚ) (med : ℚ) : Nat :=
  match l with
  | [] => 0
  | [_] => 0
  | x :: xs =>
    let j := argminAbs xs med
    if |xs.getD j 0 - med| < |x - med| then j + 1 else 0

/-- Reference-row selection (src lines 126-132): a uniformly random member
for a group of size 2 (`group.sample(n=1)`, rendered by the boolean oracle
`c`), else the member whose tm is closest to the group median (first such
member on ties, per `np.argmin`).  Returns the POSITION of the reference
within the group. -/
def chooseRefIdx (grp : List LRec) (c : Bool) : Nat :=
  if grp.length = 2 then (if c then 1 else 0)
  else argminAbs (grp.map (·.tm)) (medianQ (grp.map (·.tm)))

/-- The diff-location loop (src lines 137-141): ascending positions among
`range(ref.len)` where the member differs from the reference. -/
def diffLoc (other ref : List Char) (n : Nat) : List Nat :=
  (List.range n).filter (fun i => other.getD i ' ' ≠ ref.getD i ' ')

/-- Processing of one mutation group (body of the `groupby` loop, src lines
125-143): pick the reference, drop it, and record each remaining member's
nonempty diff-location list (`if len(diff_loc) > 0`, src line 142). -/
def locateGroup (grp : List LRec) (c : Bool) : List (Nat × List Nat) :=
  let ri := chooseRefIdx grp c
  let ref := grp.getD ri default
  let others := grp.eraseIdx ri
  others.filterMap (fun m =>
    let d := diffLoc m.protein_sequence ref.protein_sequence ref.len
    if d = [] then none else some (m.id, d))

/-- `locate_mutations(df)` (src lines 117-146): iterate the groups in
ascending key order (pandas `groupby` drops `NaN` keys and sorts), and
collect the per-member diff locations keyed by member id. -/
def locate_mutations (recs : List LRec) (choice : ℚ → Bool) :
    List (Nat × List Nat) :=
  (sortQ (recs.filterMap (·.sub_group)).dedup).foldr
    (fun g acc =>
      locateGroup (recs.filter (fun r => r.sub_group = some g)) (choice g) ++ acc)
    []

/-! ### Supporting lemmas for the Locator -/

lemma argminAbs_two (x y : ℚ) (xs : List ℚ) (med : ℚ) :
    argminAbs (x :: y :: xs) med =
      (if |(y :: xs).getD (argminAbs (y :: xs) med) 0 - med| < |x - med|
       then argminAbs (y :: xs) med + 1 else 0) := rfl

lemma argminAbs_one (x : ℚ) (med : ℚ) : argminAbs [x] med = 0 := rfl

lemma argminAbs_lt_length (l : List ℚ) (med : ℚ) (h : l ≠ []) :
    argminAbs l med < l.length := by
  induction l with
  | nil => exact absurd rfl h
  | cons x xs ih =>
    match xs with
    | [] =>
      rw [argminAbs_one]
      simp
    | y :: ys =>
      rw [argminAbs_two]
      by_cases hc : |(y :: ys).getD (argminAbs (y :: ys) med) 0 - med| < |x - med|
      · rw [if_pos hc]
        have := ih (by simp)
        simpa using Nat.succ_lt_succ this
      · rw [if_neg hc]
        simp

lemma chooseRefIdx_lt (grp : List LRec) (c : Bool) (h : grp ≠ []) :
    chooseRefIdx grp c < grp.length := by
  unfold chooseRefIdx
  by_cases h2 : grp.length = 2
  · rw [if_pos h2, h2]
    by_cases hc : c = true
    · simp [hc]
    · simp [hc]
  · rw [if_neg h2]
    have := argminAbs_lt_length (grp.map (·.tm))
      (medianQ (grp.map (·.tm))) (by simpa using h)
    simpa using this

lemma getD_mem {α : Type} [Inhabited α] :
    ∀ (l : List α) (i : Nat), i < l.length → l.getD i default ∈ l := by
  intro l
  induction l with
  | nil => intro i h; simp at h
  | cons a t ih =>
    intro i h
    match i with
    | 0 => simp
    | i + 1 =>
      rw [List.getD_cons_succ]
      exact List.mem_cons_of_mem a (ih i (by simpa using h))

lemma getD_mem_eraseIdx {α : Type} [Inhabited α] :
    ∀ (l : List α) (i j : Nat), i < l.length → i ≠ j →
      l.getD i default ∈ l.eraseIdx j := by
  intro l
  induction l with
  | nil => intro i j h _; simp at h
  | cons a t ih =>
    intro i j h hij
    match j with
    | 0 =>
      match i with
      | 0 => exact absurd rfl hij
      | i + 1 =>
        rw [List.getD_cons_succ, List.eraseIdx_cons_zero]
        exact getD_mem t i (by simpa using h)
    | j + 1 =>
      rw [List.eraseIdx_cons_succ]
      match i with
      | 0 => simp
      | i + 1 =>
        rw [List.getD_cons_succ]
        exact List.mem_cons_of_mem a
          (ih i j (by simpa using h) (fun hh => hij (by rw [hh])))

lemma id_ne_of_mem_eraseIdx :
    ∀ (l : List LRec) (i : Nat), (l.map (·.id)).Nodup → i < l.length →
      ∀ x ∈ l.eraseIdx i, x.id ≠ (l.getD i default).id := by
  intro l
  induction l with
  | nil => intro i _ h; simp at h
  | cons a t ih =>
    intro i hnd hi x hx
    match i with
    | 0 =>
      rw [List.eraseIdx_cons_zero] at hx
      rw [List.getD_cons_zero]
      have hna : a.id ∉ t.map (·.id) := by
        have := hnd
        rw [List.map_cons, List.nodup_cons] at this
        exact this.1
      intro hcontra
      exact hna (hcontra ▸ List.mem_map_of_mem (·.id) hx)
    | i + 1 =>
      rw [List.eraseIdx_cons_succ] at hx
      rw [List.getD_cons_succ]
      have hnd' : (t.map (·.id)).Nodup := by
        rw [List.map_cons, List.nodup_cons] at hnd
        exact hnd.2
      rcases List.mem_cons.mp hx with h1 | h2
      · subst h1
        have hna : x.id ∉ t.map (·.id) := by
          rw [List.map_cons, List.nodup_cons] at hnd
          exact hnd.1
        have hmem : (t.getD i default).id ∈ t.map (·.id) :=
          List.mem_map_of_mem (·.id) (getD_mem t i (by simpa using hi))
        intro hcontra
        exact hna (hcontra ▸ hmem)
      · exact ih i hnd' (by simpa using hi) x h2

lemma lookup_filterMap_none (f : LRec → Option (Nat × List Nat))
    (hf : ∀ r p, f r = some p → p.1 = r.id) (k : Nat) :
    ∀ ms : List LRec, (∀ r ∈ ms, r.id ≠ k) →
      List.lookup k (ms.filterMap f) = none := by
  intro ms
  induction ms with
  | nil => intro _; rfl
  | cons r rest ih =>
    intro hall
    rw [List.filterMap_cons]
    cases hfr : f r with
    | none => exact ih (fun x hx => hall x (List.mem_cons_of_mem r hx))
    | some p =>
      show List.lookup k (p :: List.filterMap f rest) = none
      rw [show p = (p.1, p.2) from rfl, List.lookup_cons]
      have hkey : p.1 = r.id := hf r p hfr
      have hb : (k == p.1) = false := by
        rw [hkey]
        exact beq_eq_false_iff_ne.mpr
          (fun hh => hall r (List.mem_cons_self r rest) hh.symm)
      rw [hb]
      exact ih (fun x hx => hall x (List.mem_cons_of_mem r hx))

lemma lookup_filterMap_eq (f : LRec → Option (Nat × List Nat))
    (hf : ∀ r p, f r = some p → p.1 = r.id) :
    ∀ (ms : List LRec) (m : LRec), m ∈ ms → (ms.map (·.id)).Nodup →
      List.lookup m.id (ms.filterMap f) = (f m).map (·.2) := by
  intro ms
  induction ms with
  | nil => intro m hm; simp at hm
  | cons r rest ih =>
    intro m hm hnd
    have hnd' : (rest.map (·.id)).Nodup := by
      rw [List.map_cons, List.nodup_cons] at hnd
      exact hnd.2
    have hna : r.id ∉ rest.map (·.id) := by
      rw [List.map_cons, List.nodup_cons] at hnd
      exact hnd.1
    rw [List.filterMap_cons]
    rcases List.mem_cons.mp hm with h1 | h2
    · subst h1
      cases hfr : f m with
      | none =>
        show List.lookup m.id (List.filterMap f rest) = none
        exact lookup_filterMap_none f hf m.id rest
          (fun x hx hcontra =>
            hna (hcontra ▸ List.mem_map_of_mem (·.id) hx))
      | some p =>
        show List.lookup m.id (p :: List.filterMap f rest) =
          Option.map (fun x => x.2) (some p)
        rw [show p = (p.1, p.2) from rfl, List.lookup_cons]
        have hkey : p.1 = m.id := hf m p hfr
        rw [show (m.id == p.1) = true from by rw [hkey]; exact beq_self_eq_true m.id]
        rfl
    · have hne : m.id ≠ r.id := by
        intro hcontra
        exact hna (hcontra ▸ List.mem_map_of_mem (·.id) h2)
      cases hfr : f r with
      | none => exact ih m h2 hnd'
      | some p =>
        show List.lookup m.id (p :: List.filterMap f rest) =
          Option.map (fun x => x.2) (f m)
        rw [show p = (p.1, p.2) from rfl, List.lookup_cons]
        have hkey : p.1 = r.id := hf r p hfr
        rw [show (m.id == p.1) = false from by
          rw [hkey]; exact beq_eq_false_iff_ne.mpr hne]
        exact ih m h2 hnd'

/-! ### Claim C6 -/

/-- C6 (amended): for any mutation group with distinct ids and any
reference choice (the size-2 random draw is the boolean oracle `c`), the
map built by the Locator contains an entry for a member at position `i`
iff `i` is not the reference position and the member differs from the
reference somewhere; the entry is the ascending list of exactly the
differing positions below the reference's `len`; the reference itself and
members identical to the reference have NO entry. -/
theorem C6_locate_group_mapping (grp : List LRec) (c : Bool)
    (hnodup : (grp.map (·.id)).Nodup) (i : Nat) (hi : i < grp.length) :
    List.lookup (grp.getD i default).id (locateGroup grp c) =
      (if i = chooseRefIdx grp c then none
       else if diffLoc (grp.getD i default).protein_sequence
           (grp.getD (chooseRefIdx grp c) default).protein_sequence
           (grp.getD (chooseRefIdx grp c) default).len = [] then none
       else some (diffLoc (grp.getD i default).protein_sequence
           (grp.getD (chooseRefIdx grp c) default).protein_sequence
           (grp.getD (chooseRefIdx grp c) default).len)) ∧
    (∀ k, k ∈ diffLoc (grp.getD i default).protein_sequence
        (grp.getD (chooseRefIdx grp c) default).protein_sequence
        (grp.getD (chooseRefIdx grp c) default).len ↔
      (k < (grp.getD (chooseRefIdx grp c) default).len ∧
        (grp.getD i default).protein_sequence.getD k ' ' ≠
          (grp.getD (chooseRefIdx grp c) default).protein_sequence.getD k ' ')) ∧
    (diffLoc (grp.getD i default).protein_sequence
        (grp.getD (chooseRefIdx grp c) default).protein_sequence
        (grp.getD (chooseRefIdx grp c) default).len).Pairwise (· < ·) := by
  have hne : grp ≠ [] := by
    intro hcontra
    rw [hcontra] at hi
    simp at hi
  have hri : chooseRefIdx grp c < grp.length := chooseRefIdx_lt grp c hne
  have hf : ∀ (r : LRec) (p : Nat × List Nat),
      (if diffLoc r.protein_sequence
          (grp.getD (chooseRefIdx grp c) default).protein_sequence
          (grp.getD (chooseRefIdx grp c) default).len = [] then none
       else some (r.id, diffLoc r.protein_sequence
          (grp.getD (chooseRefIdx grp c) default).protein_sequence
          (grp.getD (chooseRefIdx grp c) default).len)) = some p → p.1 = r.id := by
    intro r p h
    by_cases hd : diffLoc r.protein_sequence
        (grp.getD (chooseRefIdx grp c) default).protein_sequence
        (grp.getD (chooseRefIdx grp c) default).len = []
    · rw [if_pos hd] at h
      cases h
    · rw [if_neg hd] at h
      cases h
      rfl
  refine ⟨?_, ?_, ?_⟩
  · by_cases hcase : i = chooseRefIdx grp c
    · rw [if_pos hcase, hcase]
      exact lookup_filterMap_none _ hf _ (grp.eraseIdx (chooseRefIdx grp c))
        (fun x hx => id_ne_of_mem_eraseIdx grp (chooseRefIdx grp c) hnodup hri x hx)
    · rw [if_neg hcase]
      have hm : grp.getD i default ∈ grp.eraseIdx (chooseRefIdx grp c) :=
        getD_mem_eraseIdx grp i (chooseRefIdx grp c) hi hcase
      have hnd2 : ((grp.eraseIdx (chooseRefIdx grp c)).map (·.id)).Nodup :=
        List.Nodup.sublist
          (List.Sublist.map (·.id) (List.eraseIdx_sublist grp (chooseRefIdx grp c)))
          hnodup
      have hlk := lookup_filterMap_eq _ hf
        (grp.eraseIdx (chooseRefIdx grp c)) (grp.getD i default) hm hnd2
      rw [show locateGroup grp c =
          (grp.eraseIdx (chooseRefIdx grp c)).filterMap
            (fun m => if diffLoc m.protein_sequence
                (grp.getD (chooseRefIdx grp c) default).protein_sequence
                (grp.getD (chooseRefIdx grp c) default).len = [] then none
              else some (m.id, diffLoc m.protein_sequence
                (grp.getD (chooseRefIdx grp c) default).protein_sequence
                (grp.getD (chooseRefIdx grp c) default).len)) from rfl, hlk]
      by_cases hd : diffLoc (grp.getD i default).protein_sequence
          (grp.getD (chooseRefIdx grp c) default).protein_sequence
          (grp.getD (chooseRefIdx grp c) default).len = []
      · rw [if_pos hd, if_pos hd]
        rfl
      · rw [if_neg hd, if_neg hd]
        rfl
  · intro k
    simp [diffLoc, List.mem_filter, List.mem_range]
  · exact List.Pairwise.filter _ (List.pairwise_lt_range _)

/-- Concrete size-3 mutation group for the Locator: records 0 and 1 share
the same sequence "AB", record 2 has "CB"; tms 50, 55, 60. -/
def cRecs : List LRec :=
  [⟨0, ['A', 'B'], 50, 2, some 7⟩, ⟨1, ['A', 'B'], 55, 2, some 7⟩,
   ⟨2, ['C', 'B'], 60, 2, some 7⟩]

/-- C6 (counterexample): in the group `cRecs` the reference is record 1
(median tm), and record 0 — a non-reference member — has NO entry in the
returned mapping because it is identical to the reference, refuting "every
non-reference group member's id is mapped". -/
theorem C6_counterexample :
    locate_mutations cRecs (fun _ => true) = [(2, [0])] ∧
    chooseRefIdx cRecs true = 1 ∧
    List.lookup 0 (locate_mutations cRecs (fun _ => true)) = none := by
  have hargmin : argminAbs [50, 55, 60] 55 = 1 := by
    rw [argminAbs_two, argminAbs_two, argminAbs_one]
    norm_num [List.getD_cons_zero, List.getD_cons_succ]
  have hmed : medianQ [50, 55, 60] = 55 := by decide
  have hchoose : chooseRefIdx cRecs true = 1 := by
    unfold chooseRefIdx
    rw [if_neg (by decide : ¬ (cRecs.length = 2)),
      show cRecs.map (·.tm) = [50, 55, 60] from rfl, hmed, hargmin]
  have hgrp : locateGroup cRecs true = [(2, [0])] := by
    simp only [locateGroup, hchoose]
    decide
  have hkeys : sortQ ((cRecs.filterMap (·.sub_group)).dedup) = [7] := by decide
  have hfilter : cRecs.filter (fun r => r.sub_group = some 7) = cRecs := by decide
  have hloc : locate_mutations cRecs (fun _ => true) = [(2, [0])] := by
    unfold locate_mutations
    rw [hkeys]
    simp only [List.foldr_cons, List.foldr_nil]
    rw [hfilter, hgrp]
    rfl
  exact ⟨hloc, hchoose, by rw [hloc]; rfl⟩

/-- C6 (witness): `C6_locate_group_mapping` applied to `cRecs` at member
position 2: the diff-location list is exactly the differing positions
below the reference length. -/
theorem C6_witness :
    0 ∈ diffLoc (cRecs.getD 2 default).protein_sequence
        (cRecs.getD (chooseRefIdx cRecs true) default).protein_sequence
        (cRecs.getD (chooseRefIdx cRecs true) default).len ↔
      (0 < (cRecs.getD (chooseRefIdx cRecs true) default).len ∧
        (cRecs.getD 2 default).protein_sequence.getD 0 ' ' ≠
          (cRecs.getD (chooseRefIdx cRecs true) default).protein_sequence.getD 0 ' ') :=
  (C6_locate_group_mapping cRecs true (by decide) 2 (by decide)).2.1 0

/-! ### Batch collation (`Dataset.collate` src lines 548-592,
`DatasetPairs.collate` src lines 860-903).  Tensors are modelled as lists
of rows of integers; an item is the dict produced by `__getitem__`. -/

structure CItem where
  input_ids : List (List ℤ)
  attention_mask : List (List ℤ)
  position_ids : Option (List (List ℤ))
  pH : ℚ
  id : Nat
  pair_id : Option Nat
  tm : Option ℚ
  deriving Repr, DecidableEq

inductive CollErr
  | indexError    -- batch[0] on an empty batch
  | nameError     -- using the never-created `tm` list, or `return data` unbound
  | keyError      -- data["pair_id"] missing
  | emptyCat      -- torch.cat of an empty tensor list
  | shapeMismatch -- torch.cat of tensors with differing row widths
  deriving Repr, DecidableEq

/-- `torch.cat` along dim 0: fails on an empty list of tensors or when the
row widths disagree. -/
def torchCat (ts : List (List (List ℤ))) : Except CollErr (List (List ℤ)) :=
  match ts with
  | [] => .error .emptyCat
  | _ =>
    let rows := ts.join
    match rows.head? with
    | none => .ok []
    | some r =>
      if rows.all (fun v => v.length = r.length) then .ok rows
      else .error .shapeMismatch

/-- The first exception raised inside the collate for-loop: a missing
"pair_id" (pair collate, src line 878) raises KeyError; an item carrying
"tm" when `batch[0]` had none (so the `tm` list was never created, src
lines 557/870) raises NameError at the append (src lines 569/882). -/
def itemLoopErr (hasTm needPair : Bool) (d : CItem) : Option CollErr :=
  if needPair ∧ d.pair_id.isNone then some .keyError
  else if ¬ hasTm = true ∧ d.tm.isSome then some .nameError
  else none

structure Collated where
  input_ids : List (List ℤ)
  attention_mask : List (List ℤ)
  position_ids : List (List ℤ)
  pH : List ℚ
  id : List Nat
  pair_id : Option (List Nat)
  n_splits : List Nat
  tm : Option (List ℚ)
  deriving Repr, DecidableEq

/-- Shared collate body (src lines 550-587 and 862-901): run the
collection loop, then `torch.cat` the ids, masks and position ids.  On an
exception the error kind is returned together with the value of the loop
variable `data` at that point (the last item once the loop finished). -/
def collateBody (needPair : Bool) (b0 : CItem) (batch : List CItem) :
    Except (CollErr × CItem) Collated :=
  let hasTm := b0.tm.isSome
  match batch.findSome? (fun d => (itemLoopErr hasTm needPair d).map ((·, d))) with
  | some e => .error e
  | none =>
    let dlast := batch.getLastD b0
    match torchCat (batch.map (·.input_ids)) with
    | .error e => .error (e, dlast)
    | .ok ii =>
      match torchCat (batch.map (·.attention_mask)) with
      | .error e => .error (e, dlast)
      | .ok am =>
        match torchCat (batch.filterMap (·.position_ids)) with
        | .error e => .error (e, dlast)
        | .ok pos =>
          .ok { input_ids := ii, attention_mask := am, position_ids := pos,
                pH := batch.map (·.pH), id := batch.map (·.id),
                pair_id := if needPair then some (batch.filterMap (·.pair_id))
                  else none,
                n_splits := batch.map (fun d => d.input_ids.length),
                tm := if hasTm then some (batch.filterMap (·.tm)) else none }

inductive DCollateOut
  | full (c : Collated)
  | degraded (d : CItem)
  deriving Repr, DecidableEq

/-- `Dataset.collate` (src lines 548-592): the whole body runs inside
`try/except Exception` which prints and falls through to `return data`;
after a caught exception `data` still holds the loop item from the `for`
(a degraded result).  On an EMPTY batch the IndexError from `batch[0]` is
caught, but then `return data` itself raises NameError (outside the try),
which propagates. -/
def Dataset_collate (batch : List CItem) : Except CollErr DCollateOut :=
  match batch with
  | [] => .error .nameError
  | b0 :: _ =>
    match collateBody false b0 batch with
    | .ok c => .ok (.full c)
    | .error (_, d) => .ok (.degraded d)

/-- `DatasetPairs.collate` (src lines 860-903): the same body WITHOUT any
try/except — every exception propagates to the caller. -/
def DatasetPairs_collate (batch : List CItem) : Except CollErr Collated :=
  match batch with
  | [] => .error .indexError
  | b0 :: _ =>
    match collateBody true b0 batch with
    | .ok c => .ok c
    | .error (e, _) => .error e

/-! ### Claim C5 -/

/-- Two pair-dataset items whose stacked `input_ids` widths disagree
(3 vs 4). -/
def cItemA : CItem :=
  ⟨[[1, 1, 1]], [[1, 1, 1]], some [[0, 1, 2]], 7, 0, some 0, none⟩

def cItemB : CItem :=
  ⟨[[2, 2, 2, 2]], [[1, 1, 1, 1]], some [[0, 1, 2, 3]], 7, 1, some 0, none⟩

/-- C5 (amended): `Dataset.collate` wraps its body in `try/except`, so on
every NONEMPTY batch it returns a (possibly degraded) result instead of
raising. -/
theorem C5_dataset_collate_catches (batch : List CItem) (h : batch ≠ []) :
    (Dataset_collate batch).isOk = true := by
  match batch with
  | [] => exact absurd rfl h
  | b0 :: rest =>
    cases hb : collateBody false b0 (b0 :: rest) with
    | ok c => simp [Dataset_collate, hb, Except.isOk, Except.toBool]
    | error e =>
      obtain ⟨e1, e2⟩ := e
      simp [Dataset_collate, hb, Except.isOk, Except.toBool]

/-- C5 (counterexample): `DatasetPairs.collate` has NO try/except; on a
batch with mismatched tensor widths the shape error propagates to the
caller instead of being caught and logged — while `Dataset.collate` on the
same batch returns a degraded result. -/
theorem C5_counterexample :
    DatasetPairs_collate [cItemA, cItemB] = .error .shapeMismatch ∧
    Dataset_collate [cItemA, cItemB] = .ok (.degraded cItemB) := by
  constructor
  · rfl
  · rfl

/-- C5 (witness): `C5_dataset_collate_catches` on the concrete mismatched
batch — the single-sequence collate still returns. -/
theorem C5_witness : (Dataset_collate [cItemA, cItemB]).isOk = true :=
  C5_dataset_collate_catches [cItemA, cItemB] (List.cons_ne_nil _ _)

instance {ε α : Type} [DecidableEq ε] [DecidableEq α] : DecidableEq (Except ε α) :=
  fun a b =>
    match a, b with
    | .ok x, .ok y =>
      if h : x = y then isTrue (by rw [h]) else isFalse (fun hh => by cases hh; exact h rfl)
    | .error x, .error y =>
      if h : x = y then isTrue (by rw [h]) else isFalse (fun hh => by cases hh; exact h rfl)
    | .ok _, .error _ => isFalse (fun hh => by cases hh)
    | .error _, .ok _ => isFalse (fun hh => by cases hh)

/-! ### Pair Dataset (`DatasetPairs`, src lines 599-858) -/

/-- A row of `df_mutations`: sequence, pH, tm, group label and the
(optional) mutation-site list from the Locator.  Rows are identified by
position. -/
structure PRec where
  protein_sequence : List Char
  pH : ℚ
  tm : ℚ
  sub_group : Option ℚ
  sub_locations : Option (List Nat)
  deriving Repr, DecidableEq

instance : Inhabited PRec := ⟨⟨[], 0, 0, none, none⟩⟩

/-- A row of `dict_pairs`/`df_pairs` (src lines 789-791, 828). -/
structure PairInfo where
  i_batch : Nat
  diff_tm : ℚ
  sub_group : Option ℚ
  diff_locations : List Nat
  deriving Repr, DecidableEq

/-- Mutable state of `pair_sampler`: `dict_pairs` in insertion order,
`dict_sampled` (id → pending pair-row indices), the per-record
`occurrence` column (initialised to 0 in `__init__`, src line 610),
and the `i_batch`/`i_pair` counters. -/
structure SampState where
  dictPairs : List ((Nat × Nat) × PairInfo)
  dictSampled : List (Nat × List Nat)
  occ : List Nat
  iBatch : Nat
  iPair : Nat
  deriving Repr, DecidableEq

inductive SErr
  | assertError  -- neither stopping bound supplied (src line 754)
  | indexError   -- all_pairs[i_pair] (src line 783) or prot_seq[loc] (src line 825)
  | keyError     -- .loc[id] with an id outside the dataframe
  | typeError    -- batch_size += 2 * None (get_number_AA returned None)
  | fuel         -- out of fuel: the Python loop would still be running
  deriving Repr, DecidableEq

/-- Ascending duplicate-free insertion (Python `set` of small naturals
iterates in increasing order). -/
def insertAsc (x : Nat) : List Nat → List Nat
  | [] => [x]
  | y :: l =>
    if x < y then x :: y :: l
    else if x = y then y :: l
    else y :: insertAsc x l

def setAsc (l : List Nat) : List Nat := l.foldr insertAsc []

/-- Register pair-row `ip` under key `id` in `dict_sampled`
(src lines 793-801): create a singleton list for a fresh key, else
append. -/
def pushSampled (ds : List (Nat × List Nat)) (id ip : Nat) :
    List (Nat × List Nat) :=
  match List.lookup id ds with
  | none => ds ++ [(id, [ip])]
  | some _ => ds.map (fun e => if e.1 = id then (e.1, e.2 ++ [ip]) else e)

/-- One iteration of the inner `while` body (src lines 783-830): draw the
next pair, record it, bump both occurrence counters and both queues, and
return the new state plus the batch-size increment `2 * n_AA`.  A Python
exception aborts the whole call, so the partially-mutated state of a
crashed run is not observable here.  `pairStep` is the successful state
update of one iteration; `consumePair` wraps it in the error checks. -/
def pairEntry (recs : List PRec) (s : SampState) (id1 id2 : Nat)
    (h1 : id1 < recs.length) (h2 : id2 < recs.length) :
    (Nat × Nat) × PairInfo :=
  ((id1, id2),
    ⟨s.iBatch, (recs.get ⟨id1, h1⟩).tm - (recs.get ⟨id2, h2⟩).tm,
     (recs.get ⟨id1, h1⟩).sub_group,
     (setAsc (((recs.get ⟨id1, h1⟩).sub_locations.getD []) ++
         ((recs.get ⟨id2, h2⟩).sub_locations.getD []))).filter (fun loc =>
       (recs.get ⟨id1, h1⟩).protein_sequence.getD loc ' ' ≠
         (recs.get ⟨id2, h2⟩).protein_sequence.getD loc ' ')⟩)

def pairStep (recs : List PRec) (s : SampState) (id1 id2 : Nat)
    (h1 : id1 < recs.length) (h2 : id2 < recs.length) : SampState :=
  ⟨s.dictPairs ++ [pairEntry recs s id1 id2 h1 h2],
    pushSampled (pushSampled s.dictSampled id1 s.iPair) id2 s.iPair,
    (s.occ.set id1 (s.occ.getD id1 0 + 1)).set id2
      ((s.occ.set id1 (s.occ.getD id1 0 + 1)).getD id2 0 + 1),
    s.iBatch, s.iPair + 1⟩

def consumePair (recs : List PRec) (st' : TSettings) (perm : List (Nat × Nat))
    (s : SampState) : Except SErr (SampState × ℤ) :=
  match perm.get? s.iPair with
  | none => .error .indexError
  | some (id1, id2) =>
    if h1 : id1 < recs.length then
      if h2 : id2 < recs.length then
        match get_number_AA (recs.get ⟨id1, h1⟩).protein_sequence st' with
        | none => .error .typeError
        | some nAA =>
          if (setAsc (((recs.get ⟨id1, h1⟩).sub_locations.getD []) ++
              ((recs.get ⟨id2, h2⟩).sub_locations.getD []))).all (fun loc =>
                loc < (recs.get ⟨id1, h1⟩).protein_sequence.length ∧
                loc < (recs.get ⟨id2, h2⟩).protein_sequence.length) then
            .ok (pairStep recs s id1 id2 h1 h2, 2 * nAA)
          else .error .indexError
      else .error .keyError
    else .error .keyError

/-- The inner `while batch_size < batch_size_min` loop (src lines
782-830), fuel-indexed. -/
def innerLoop (recs : List PRec) (st' : TSettings) (perm : List (Nat × Nat))
    (bsMin : ℤ) : Nat → SampState → ℤ → Except SErr SampState
  | 0, _, _ => .error .fuel
  | fuel + 1, s, bs =>
    if bs < bsMin then
      match consumePair recs st' perm s with
      | .error e => .error e
      | .ok (s2, add) => innerLoop recs st' perm bsMin fuel s2 (bs + add)
    else .ok s

/-- `n <= n_batches_max` with `None` standing for `np.inf`. -/
def leInfN (n : Nat) (b : Option Nat) : Bool :=
  match b with
  | none => true
  | some m => n ≤ m

/-- `q < coverage_rate_min` with `None` standing for `np.inf`. -/
def ltInfQ (q : ℚ) (b : Option ℚ) : Bool :=
  match b with
  | none => true
  | some c => q < c

/-- The outer `while` loop (src line 778).  CRUCIALLY, the variable
`coverage_rate` tested by the loop condition is initialised to 0 before
the loop (src line 768) and NEVER reassigned inside it (it is recomputed
only after the loop, src lines 846-847), so the tested value is the
constant 0. -/
def outerLoop (recs : List PRec) (st' : TSettings) (perm : List (Nat × Nat))
    (bsMin : ℤ) (nMax : Option Nat) (covMin : Option ℚ) :
    Nat → SampState → Except SErr SampState
  | 0, _ => .error .fuel
  | fuel + 1, s =>
    let covRate : ℚ := 0
    if (leInfN s.iBatch nMax && ltInfQ covRate covMin) = true then
      match innerLoop recs st' perm bsMin (fuel + 1) s 0 with
      | .error e => .error e
      | .ok s2 => outerLoop recs st' perm bsMin nMax covMin fuel
          ⟨s2.dictPairs, s2.dictSampled, s2.occ, s2.iBatch + 1, s2.iPair⟩
    else .ok s

/-- Initial sampler state: empty dicts, all occurrences 0 (src lines
610, 763-769). -/
def initSampState (recs : List PRec) : SampState :=
  ⟨[], [], List.replicate recs.length 0, 0, 0⟩

/-- `itertools.combinations(l, 2)` in order. -/
def combos : List Nat → List (Nat × Nat)
  | [] => []
  | x :: xs => xs.map (fun y => (x, y)) ++ combos xs

/-- The per-group position lists of `groupby("sub_group")` (sorted keys,
`NaN` dropped, original order within each group). -/
def groupsOf (recs : List PRec) : List (List Nat) :=
  (sortQ ((recs.filterMap (·.sub_group)).dedup)).map
    (fun g => (List.range recs.length).filter
      (fun i => (recs.getD i default).sub_group = some g))

/-- `all_pairs` before the permutation (src lines 771-775). -/
def allPairsOf (recs : List PRec) : List (Nat × Nat) :=
  (groupsOf recs).foldr (fun g acc => combos g ++ acc) []

/-- The post-loop coverage computation (src lines 844-847): fraction of
record ids appearing in at least one sampled pair. -/
def coverageOf (st : SampState) (recs : List PRec) : ℚ :=
  (((List.range recs.length).filter (fun i =>
    st.dictPairs.any (fun e => e.1.1 = i ∨ e.1.2 = i))).length : ℚ) /
    (recs.length : ℚ)

/-- `list_batch_ids` (src lines 853-856): per batch (ascending `i_batch`),
all `id_1`s then all `id_2`s. -/
def batchIds (st : SampState) : List (List Nat) :=
  (setAsc (st.dictPairs.map (fun e => e.2.i_batch))).map (fun k =>
    ((st.dictPairs.filter (fun e => e.2.i_batch = k)).map (fun e => e.1.1)) ++
    ((st.dictPairs.filter (fun e => e.2.i_batch = k)).map (fun e => e.1.2)))

/-- `DatasetPairs.pair_sampler(batch_size_min, n_batches_max,
coverage_rate_min)` (src lines 751-858).  The permuted pair list
(`np.random.permutation(all_pairs)`, src line 776) enters as the oracle
`perm`; a faithful run has `perm` a permutation of `allPairsOf recs`.
Returns the final sampler state and `list_batch_ids`. -/
def pair_sampler (recs : List PRec) (st' : TSettings) (perm : List (Nat × Nat))
    (bsMin : ℤ) (nMax : Option Nat) (covMin : Option ℚ) (fuel : Nat) :
    Except SErr (SampState × List (List Nat)) :=
  if nMax = none ∧ covMin = none then .error .assertError
  else
    match outerLoop recs st' perm bsMin nMax covMin fuel (initSampState recs) with
    | .error e => .error e
    | .ok s => .ok (s, batchIds s)

/-- Two-record dataset for the concrete sampler runs: one mutation group,
sequences of length 2, melting temperatures 50 and 55. -/
def sRecs : List PRec :=
  [⟨['A', 'B'], 7, 50, some 0, none⟩, ⟨['A', 'C'], 7, 55, some 0, none⟩]

/-- No windowing, so `get_number_AA` returns the raw sequence length. -/
def sSettings : TSettings := ⟨none, none, 0, none⟩

/-- Sampler state after the single available pair (0,1) has been drawn
and the first batch has been closed. -/
def sStop : SampState :=
  ⟨[((0, 1), ⟨0, 50 - 55, some 0, []⟩)], [(0, [0]), (1, [0])], [1, 1], 1, 1⟩

/-- **C2.** The claim says `pair_sampler` stops as soon as the coverage
rate reaches `coverage_rate_min`, in particular terminating when only the
coverage bound is supplied.  The code contradicts this: the
`coverage_rate` tested by the loop condition (src line 778) is the
constant 0 set at line 768 and is recomputed only AFTER the loop (lines
846-847), so a coverage-only bound never stops the loop and the run dies
with an IndexError at `all_pairs[i_pair]` (line 783) once the pair list
is exhausted.  On `sRecs` (2 records, one pair): with `n_batches_max = 0`
the run completes after one batch with every record covered, coverage
rate 1; yet the same input with only `coverage_rate_min = 1` (already
reached after that batch) never returns for any amount of fuel. -/
theorem C2_coverage_bound_never_stops :
    pair_sampler sRecs sSettings [(0, 1)] 1 (some 0) none 3 =
      .ok (sStop, [[0, 1]]) ∧
    coverageOf sStop sRecs = 1 ∧
    (∀ fuel, (pair_sampler sRecs sSettings [(0, 1)] 1 none (some 1)
      fuel).isOk = false) := by
  refine ⟨rfl, ?_, ?_⟩
  · rw [show coverageOf sStop sRecs = ((2 : ℕ) : ℚ) / ((2 : ℕ) : ℚ) from rfl]
    norm_num
  · intro fuel
    match fuel with
    | 0 => rfl
    | 1 => rfl
    | 2 => rfl
    | (n + 3) => rfl

/-! ### C9: the occurrence/queue invariant of the sampler -/

/-- Number of sampled pairs in which record `id` participates. -/
def pairCountL (dp : List ((Nat × Nat) × PairInfo)) (id : Nat) : Nat :=
  dp.countP (fun e => e.1.1 == id || e.1.2 == id)

/-- The invariant: the `occurrence` column, the pending-queue lengths in
`dict_sampled` and the pair participation counts agree, and absent queue
keys mean zero participation. -/
def SampInv (recs : List PRec) (st : SampState) : Prop :=
  st.occ.length = recs.length ∧
  ∀ id, st.occ.getD id 0 = pairCountL st.dictPairs id ∧
    ((List.lookup id st.dictSampled).getD []).length = pairCountL st.dictPairs id ∧
    (List.lookup id st.dictSampled = none ↔ pairCountL st.dictPairs id = 0)

lemma getD_set_self (l : List Nat) (i : Nat) (v : Nat) (h : i < l.length) :
    (l.set i v).getD i 0 = v := by
  induction l generalizing i with
  | nil => simp at h
  | cons a tl ih =>
    cases i with
    | zero => rfl
    | succ j =>
      simp only [List.set, List.getD, List.get?]
      have := ih j (by simpa using h)
      simpa [List.getD] using this

lemma getD_set_other (l : List Nat) (i j : Nat) (v : Nat) (h : i ≠ j) :
    (l.set i v).getD j 0 = l.getD j 0 := by
  induction l generalizing i j with
  | nil => rfl
  | cons a tl ih =>
    cases i with
    | zero =>
      cases j with
      | zero => exact absurd rfl h
      | succ k => rfl
    | succ m =>
      cases j with
      | zero => rfl
      | succ k =>
        simp only [List.set, List.getD, List.get?]
        have := ih m k (by intro hh; exact h (by rw [hh]))
        simpa [List.getD] using this

lemma getD_replicate (n i : Nat) : (List.replicate n (0 : Nat)).getD i 0 = 0 := by
  induction n generalizing i with
  | zero => rfl
  | succ m ih =>
    cases i with
    | zero => rfl
    | succ k =>
      simp only [List.replicate, List.getD, List.get?]
      simpa [List.getD] using ih k

lemma lookup_append_of_none {β : Type} (k : Nat) (ds es : List (Nat × β))
    (h : List.lookup k ds = none) : List.lookup k (ds ++ es) = List.lookup k es := by
  induction ds with
  | nil => rfl
  | cons e tl ih =>
    obtain ⟨a, b⟩ := e
    by_cases hk : k = a
    · subst hk
      simp [List.lookup] at h
    · rw [List.cons_append, List.lookup_cons]
      rw [List.lookup_cons] at h
      rw [show (k == a) = false from beq_eq_false_iff_ne.mpr hk] at h ⊢
      exact ih h

lemma lookup_append_of_some {β : Type} (k : Nat) (ds es : List (Nat × β))
    (v : β) (h : List.lookup k ds = some v) :
    List.lookup k (ds ++ es) = some v := by
  induction ds with
  | nil => simp [List.lookup] at h
  | cons e tl ih =>
    obtain ⟨a, b⟩ := e
    rw [List.cons_append, List.lookup_cons]
    rw [List.lookup_cons] at h
    cases hk : (k == a) with
    | true => rw [hk] at h; exact h
    | false => rw [hk] at h; exact ih h

lemma lookup_map_update_other (ds : List (Nat × List Nat)) (id id2 ip : Nat)
    (h : id ≠ id2) :
    List.lookup id (ds.map (fun e =>
      if e.1 = id2 then (e.1, e.2 ++ [ip]) else e)) = List.lookup id ds := by
  induction ds with
  | nil => rfl
  | cons e tl ih =>
    obtain ⟨a, b⟩ := e
    by_cases ha : a = id2
    · subst ha
      rw [List.map_cons, if_pos rfl, List.lookup_cons, List.lookup_cons]
      rw [show (id == a) = false from beq_eq_false_iff_ne.mpr (by simpa using h)]
      exact ih
    · rw [List.map_cons, if_neg ha, List.lookup_cons, List.lookup_cons]
      cases hk : (id == a) with
      | true => rfl
      | false => exact ih

lemma lookup_map_update_self (ds : List (Nat × List Nat)) (id ip : Nat)
    (l : List Nat) (h : List.lookup id ds = some l) :
    List.lookup id (ds.map (fun e =>
      if e.1 = id then (e.1, e.2 ++ [ip]) else e)) = some (l ++ [ip]) := by
  induction ds with
  | nil => simp [List.lookup] at h
  | cons e tl ih =>
    obtain ⟨a, b⟩ := e
    rw [List.lookup_cons] at h
    by_cases hk : id = a
    · subst hk
      rw [beq_self_eq_true] at h
      rw [List.map_cons, if_pos rfl, List.lookup_cons, beq_self_eq_true]
      cases h
      rfl
    · rw [show (id == a) = false from beq_eq_false_iff_ne.mpr hk] at h
      rw [List.map_cons, List.lookup_cons]
      by_cases ha : a = id
      · exact absurd ha.symm hk
      · rw [if_neg ha]
        rw [show (id == a) = false from beq_eq_false_iff_ne.mpr hk]
        exact ih h

lemma lookup_pushSampled_self (ds : List (Nat × List Nat)) (id ip : Nat) :
    List.lookup id (pushSampled ds id ip) =
      some (((List.lookup id ds).getD []) ++ [ip]) := by
  unfold pushSampled
  cases hl : List.lookup id ds with
  | none =>
    rw [lookup_append_of_none id ds _ hl, List.lookup_cons, beq_self_eq_true]
    rfl
  | some l =>
    rw [lookup_map_update_self ds id ip l hl]
    rfl

lemma lookup_pushSampled_other (ds : List (Nat × List Nat)) (id id2 ip : Nat)
    (h : id ≠ id2) :
    List.lookup id (pushSampled ds id2 ip) = List.lookup id ds := by
  unfold pushSampled
  cases hl : List.lookup id2 ds with
  | none =>
    cases hq : List.lookup id ds with
    | none =>
      rw [lookup_append_of_none id ds _ hq, List.lookup_cons]
      rw [show (id == id2) = false from beq_eq_false_iff_ne.mpr h]
      rfl
    | some v => exact lookup_append_of_some id ds _ v hq
  | some l => exact lookup_map_update_other ds id id2 ip h

lemma pairCountL_append (dp : List ((Nat × Nat) × PairInfo))
    (x : (Nat × Nat) × PairInfo) (id : Nat) :
    pairCountL (dp ++ [x]) id =
      pairCountL dp id + (if x.1.1 = id ∨ x.1.2 = id then 1 else 0) := by
  unfold pairCountL
  rw [List.countP_append]
  congr 1
  by_cases hx : x.1.1 = id ∨ x.1.2 = id
  · rw [if_pos hx]
    have : (x.1.1 == id || x.1.2 == id) = true := by
      rcases hx with h1 | h2
      · simp [h1]
      · simp [h2]
    simp [List.countP_cons, this]
  · rw [if_neg hx]
    push_neg at hx
    have : (x.1.1 == id || x.1.2 == id) = false := by
      simp [hx.1, hx.2]
    simp [List.countP_cons, this]

lemma pairStep_dictPairs (recs : List PRec) (s : SampState) (id1 id2 : Nat)
    (h1 : id1 < recs.length) (h2 : id2 < recs.length) :
    (pairStep recs s id1 id2 h1 h2).dictPairs =
      s.dictPairs ++ [pairEntry recs s id1 id2 h1 h2] := rfl

lemma pairStep_inv (recs : List PRec) (s : SampState) (id1 id2 : Nat)
    (h1 : id1 < recs.length) (h2 : id2 < recs.length) (hne : id1 ≠ id2)
    (hinv : SampInv recs s) : SampInv recs (pairStep recs s id1 id2 h1 h2) := by
  obtain ⟨hlen, hids⟩ := hinv
  constructor
  · show ((s.occ.set id1 _).set id2 _).length = recs.length
    rw [List.length_set, List.length_set]
    exact hlen
  · intro id
    obtain ⟨ho, hq, hiff⟩ := hids id
    by_cases hid1 : id1 = id
    · subst hid1
      have hpos : ((pairEntry recs s id1 id2 h1 h2).1.1 = id1 ∨
          (pairEntry recs s id1 id2 h1 h2).1.2 = id1) := Or.inl rfl
      refine ⟨?_, ?_, ?_⟩
      · rw [pairStep_dictPairs, pairCountL_append, if_pos hpos]
        show ((s.occ.set id1 (s.occ.getD id1 0 + 1)).set id2 _).getD id1 0 = _
        rw [getD_set_other _ id2 id1 _ (fun hh => hne hh.symm)]
        rw [getD_set_self _ id1 _ (by rw [hlen]; exact h1)]
        rw [ho]
      · rw [pairStep_dictPairs, pairCountL_append, if_pos hpos]
        show ((List.lookup id1 (pushSampled
            (pushSampled s.dictSampled id1 s.iPair) id2 s.iPair)).getD []).length = _
        rw [lookup_pushSampled_other _ id1 id2 _ hne, lookup_pushSampled_self]
        simp only [Option.getD_some]
        rw [List.length_append, hq]
        rfl
      · rw [pairStep_dictPairs, pairCountL_append, if_pos hpos]
        show List.lookup id1 (pushSampled
            (pushSampled s.dictSampled id1 s.iPair) id2 s.iPair) = none ↔ _
        rw [lookup_pushSampled_other _ id1 id2 _ hne, lookup_pushSampled_self]
        simp
    · by_cases hid2 : id2 = id
      · subst hid2
        have hpos : ((pairEntry recs s id1 id2 h1 h2).1.1 = id2 ∨
            (pairEntry recs s id1 id2 h1 h2).1.2 = id2) := Or.inr rfl
        refine ⟨?_, ?_, ?_⟩
        · rw [pairStep_dictPairs, pairCountL_append, if_pos hpos]
          show ((s.occ.set id1 (s.occ.getD id1 0 + 1)).set id2
              ((s.occ.set id1 (s.occ.getD id1 0 + 1)).getD id2 0 + 1)).getD id2 0 = _
          rw [getD_set_self _ id2 _ (by rw [List.length_set, hlen]; exact h2)]
          rw [getD_set_other _ id1 id2 _ hne]
          rw [ho]
        · rw [pairStep_dictPairs, pairCountL_append, if_pos hpos]
          show ((List.lookup id2 (pushSampled
              (pushSampled s.dictSampled id1 s.iPair) id2 s.iPair)).getD []).length = _
          rw [lookup_pushSampled_self]
          simp only [Option.getD_some]
          rw [lookup_pushSampled_other _ id2 id1 _ (fun hh => hne hh.symm)]
          rw [List.length_append, hq]
          rfl
        · rw [pairStep_dictPairs, pairCountL_append, if_pos hpos]
          show List.lookup id2 (pushSampled
              (pushSampled s.dictSampled id1 s.iPair) id2 s.iPair) = none ↔ _
          rw [lookup_pushSampled_self]
          simp
      · have hcond : ¬ ((pairEntry recs s id1 id2 h1 h2).1.1 = id ∨
            (pairEntry recs s id1 id2 h1 h2).1.2 = id) := by
          rintro (hh | hh)
          · exact hid1 hh
          · exact hid2 hh
        refine ⟨?_, ?_, ?_⟩
        · rw [pairStep_dictPairs, pairCountL_append, if_neg hcond, Nat.add_zero]
          show ((s.occ.set id1 _).set id2 _).getD id 0 = _
          rw [getD_set_other _ id2 id _ hid2, getD_set_other _ id1 id _ hid1]
          rw [ho]
        · rw [pairStep_dictPairs, pairCountL_append, if_neg hcond, Nat.add_zero]
          show ((List.lookup id (pushSampled
              (pushSampled s.dictSampled id1 s.iPair) id2 s.iPair)).getD []).length = _
          rw [lookup_pushSampled_other _ id id2 _ (fun hh => hid2 hh.symm)]
          rw [lookup_pushSampled_other _ id id1 _ (fun hh => hid1 hh.symm)]
          rw [hq]
        · rw [pairStep_dictPairs, pairCountL_append, if_neg hcond, Nat.add_zero]
          show List.lookup id (pushSampled
              (pushSampled s.dictSampled id1 s.iPair) id2 s.iPair) = none ↔ _
          rw [lookup_pushSampled_other _ id id2 _ (fun hh => hid2 hh.symm)]
          rw [lookup_pushSampled_other _ id id1 _ (fun hh => hid1 hh.symm)]
          exact hiff

lemma consumePair_inv (recs : List PRec) (st' : TSettings)
    (perm : List (Nat × Nat)) (s s2 : SampState) (add : ℤ)
    (hperm : ∀ p ∈ perm, p.1 ≠ p.2)
    (h : consumePair recs st' perm s = .ok (s2, add))
    (hinv : SampInv recs s) : SampInv recs s2 := by
  unfold consumePair at h
  split at h
  · exact Except.noConfusion h
  · rename_i id1 id2 hg
    split at h
    · rename_i h1
      split at h
      · rename_i h2
        split at h
        · exact Except.noConfusion h
        · split at h
          · injection h with h'
            injection h' with hs hadd
            subst hs
            have hne : id1 ≠ id2 := hperm (id1, id2) (List.get?_mem hg)
            exact pairStep_inv recs s id1 id2 h1 h2 hne hinv
          · exact Except.noConfusion h
      · exact Except.noConfusion h
    · exact Except.noConfusion h

lemma innerLoop_inv (recs : List PRec) (st' : TSettings)
    (perm : List (Nat × Nat)) (bsMin : ℤ)
    (hperm : ∀ p ∈ perm, p.1 ≠ p.2) :
    ∀ fuel (s : SampState) (bs : ℤ) (s2 : SampState),
      innerLoop recs st' perm bsMin fuel s bs = .ok s2 →
      SampInv recs s → SampInv recs s2 := by
  intro fuel
  induction fuel with
  | zero => intro s bs s2 h _; exact Except.noConfusion h
  | succ n ih =>
    intro s bs s2 h hinv
    unfold innerLoop at h
    by_cases hlt : bs < bsMin
    · rw [if_pos hlt] at h
      cases hc : consumePair recs st' perm s with
      | error e => rw [hc] at h; exact Except.noConfusion h
      | ok pr =>
        obtain ⟨sm, add⟩ := pr
        rw [hc] at h
        exact ih sm (bs + add) s2 h
          (consumePair_inv recs st' perm s sm add hperm hc hinv)
    · rw [if_neg hlt] at h
      injection h with h'
      subst h'
      exact hinv

lemma stepBatch_inv (recs : List PRec) (s : SampState)
    (hinv : SampInv recs s) :
    SampInv recs ⟨s.dictPairs, s.dictSampled, s.occ, s.iBatch + 1, s.iPair⟩ := by
  obtain ⟨dp, ds, oc, ib, ip⟩ := s
  exact hinv

lemma outerLoop_inv (recs : List PRec) (st' : TSettings)
    (perm : List (Nat × Nat)) (bsMin : ℤ) (nMax : Option Nat) (covMin : Option ℚ)
    (hperm : ∀ p ∈ perm, p.1 ≠ p.2) :
    ∀ fuel (s : SampState) (s2 : SampState),
      outerLoop recs st' perm bsMin nMax covMin fuel s = .ok s2 →
      SampInv recs s → SampInv recs s2 := by
  intro fuel
  induction fuel with
  | zero => intro s s2 h _; exact Except.noConfusion h
  | succ n ih =>
    intro s s2 h hinv
    unfold outerLoop at h
    by_cases hcond : (leInfN s.iBatch nMax && ltInfQ 0 covMin) = true
    · rw [if_pos hcond] at h
      cases hc : innerLoop recs st' perm bsMin (n + 1) s 0 with
      | error e => rw [hc] at h; exact Except.noConfusion h
      | ok sm =>
        rw [hc] at h
        exact ih _ s2 h (stepBatch_inv recs sm
          (innerLoop_inv recs st' perm bsMin hperm (n + 1) s 0 sm hc hinv))
    · rw [if_neg hcond] at h
      injection h with h'
      subst h'
      exact hinv

lemma initSampState_inv (recs : List PRec) : SampInv recs (initSampState recs) := by
  refine ⟨by simp [initSampState], ?_⟩
  intro id
  refine ⟨?_, ?_, ?_⟩
  · show (List.replicate recs.length 0).getD id 0 = pairCountL [] id
    rw [getD_replicate]
    rfl
  · rfl
  · simp [initSampState, pairCountL, List.lookup]

/-- **C9.**  After any completed run of `pair_sampler` on a permuted pair
list whose pairs have distinct members, every record id's `occurrence`
entry equals the number of sampled pairs containing that id, which also
equals the length of its pending queue in `dict_sampled`; ids in no
sampled pair have occurrence 0 and no queue entry (absent key). -/
theorem C9_occurrence_invariant (recs : List PRec) (st' : TSettings)
    (perm : List (Nat × Nat)) (bsMin : ℤ) (nMax : Option Nat)
    (covMin : Option ℚ) (fuel : Nat) (st : SampState) (bids : List (List Nat))
    (hperm : ∀ p ∈ perm, p.1 ≠ p.2)
    (hrun : pair_sampler recs st' perm bsMin nMax covMin fuel = .ok (st, bids))
    (id : Nat) :
    st.occ.getD id 0 = pairCountL st.dictPairs id ∧
    ((List.lookup id st.dictSampled).getD []).length = pairCountL st.dictPairs id ∧
    (List.lookup id st.dictSampled = none ↔ pairCountL st.dictPairs id = 0) := by
  unfold pair_sampler at hrun
  split at hrun
  · exact Except.noConfusion hrun
  · cases ho : outerLoop recs st' perm bsMin nMax covMin fuel (initSampState recs) with
    | error e => rw [ho] at hrun; exact Except.noConfusion hrun
    | ok s =>
      rw [ho] at hrun
      injection hrun with h'
      have hst : s = st := congrArg Prod.fst h'
      subst hst
      exact (outerLoop_inv recs st' perm bsMin nMax covMin hperm fuel
        (initSampState recs) s ho (initSampState_inv recs)).2 id

/-- Witness for C9: the completed two-record run (one batch, pair (0,1))
satisfies the invariant at id 0. -/
theorem C9_witness :
    sStop.occ.getD 0 0 = pairCountL sStop.dictPairs 0 ∧
    ((List.lookup 0 sStop.dictSampled).getD []).length = pairCountL sStop.dictPairs 0 ∧
    (List.lookup 0 sStop.dictSampled = none ↔ pairCountL sStop.dictPairs 0 = 0) :=
  C9_occurrence_invariant sRecs sSettings [(0, 1)] 1 (some 0) none 3 sStop
    [[0, 1]] (by decide) rfl 0

/-! ### C10: `DatasetPairs.__getitem__` with `tokenizer = None` -/

/-- Python exceptions `DatasetPairs.__getitem__` can raise. -/
inductive GErr
  | keyError     -- df_mutations.loc[i] / dict_sampled[i] / df_pairs.loc[i_pair]
  | indexError   -- self.dict_sampled[i][0] on an empty queue (src line 625)
  | nameError    -- the output dict `data` was never initialised (src lines 653, 716)
  | assertError  -- "Wrong Option." (src line 644) or a truncate assert
  | valueError
  | typeError
  deriving Repr, DecidableEq

def liftTErr : TErr → GErr
  | .assertNegLoc => .assertError
  | .assertOverlap => .assertError
  | .valueError => .valueError
  | .typeError => .typeError
  | .nameError => .nameError

/-- The data handed to the (external, opaque) tokenizer on the three
successful paths of `__getitem__`; reaching one of these constructors
means the raw-sequence returns at lines 653-654 / 716-717 were NOT
taken. -/
inductive GOut
  | windowed (trunc : List (List Char)) (posIds : List (List ℤ))
  | short (seq : List Char)
  | nomax (seq : List Char)
  deriving Repr, DecidableEq

/-- `DatasetPairs.__getitem__(i)` (src lines 620-749) up to the external
tokenizer boundary.  `recs` is `df_mutations`, `dfPairs` is `df_pairs`
(row `ip` holds the pair info), `dsamp` is `dict_sampled`; `c z u pick`
are the randomness oracles forwarded to `truncate_sequence`.  Returns the
tokenizer-bound payload together with the updated `dict_sampled` (the
head of queue `i` is consumed at lines 627-631 before any branching).  A
raised exception aborts the call, so the partially-updated `dict_sampled`
of a crashed call is not observable here. -/
def DatasetPairs_getitem (recs : List PRec) (dfPairs : List PairInfo)
    (dsamp : List (Nat × List Nat)) (st' : TSettings) (tokenizer : Option Unit)
    (i : Nat) (c : Nat) (z : ℤ) (u : Nat) (pick : List Nat) :
    Except GErr (GOut × List (Nat × List Nat)) :=
  if hrec : i < recs.length then
    match List.lookup i dsamp with
    | none => .error .keyError
    | some [] => .error .indexError
    | some (ip :: rest) =>
      match dfPairs.get? ip with
      | none => .error .keyError
      | some pair =>
        match st'.max_length with
        | some M =>
          if ((recs.get ⟨i, hrec⟩).protein_sequence.length : ℤ) > (M : ℤ) - 2 then
            if st'.truncate = some TMode.single ∨ st'.truncate = some TMode.split then
              match truncate_sequence (recs.get ⟨i, hrec⟩).protein_sequence st'
                  (some (pair.diff_locations.map (fun n : Nat => (n : ℤ)))) c z u pick with
              | .error e => .error (liftTErr e)
              | .ok (trunc, posIds) =>
                match tokenizer with
                | none => .error .nameError
                | some _ =>
                  .ok (.windowed trunc posIds,
                    dsamp.map (fun e => if e.1 = i then (e.1, rest) else e))
            else .error .assertError
          else
            match tokenizer with
            | none => .error .nameError
            | some _ =>
              .ok (.short (recs.get ⟨i, hrec⟩).protein_sequence,
                dsamp.map (fun e => if e.1 = i then (e.1, rest) else e))
        | none =>
          match tokenizer with
          | none => .error .nameError
          | some _ =>
            .ok (.nomax (recs.get ⟨i, hrec⟩).protein_sequence,
              dsamp.map (fun e => if e.1 = i then (e.1, rest) else e))
  else .error .keyError

lemma any_natCast_neg_false (l : List Nat) :
    (l.map (fun n : Nat => (n : ℤ))).any (fun loc => decide (loc < 0)) = false := by
  induction l with
  | nil => rfl
  | cons a tl ih =>
    simp only [List.map_cons, List.any_cons, ih, Bool.or_false,
      decide_eq_false_iff_not, not_lt]
    exact Int.natCast_nonneg a

lemma truncate_single_some_isOk (seq : List Char) (st : TSettings)
    (locs : List Nat) (c : Nat) (z : ℤ) (u : Nat) (pick : List Nat) (M : Nat)
    (hmode : st.truncate = some TMode.single) (hM : st.max_length = some M)
    (hov1 : 0 ≤ st.overlap) (hov2 : st.overlap < 1) (hdl : locs ≠ []) :
    (truncate_sequence seq st (some (locs.map (fun n : Nat => (n : ℤ))))
      c z u pick).isOk = true := by
  obtain ⟨ML, TR, OV, SS⟩ := st
  have hmode' : TR = some TMode.single := hmode
  have hM' : ML = some M := hM
  have hov1' : (0 : ℚ) ≤ OV := hov1
  have hov2' : OV < 1 := hov2
  subst hmode'
  subst hM'
  cases locs with
  | nil => exact absurd rfl hdl
  | cons a tl =>
    unfold truncate_sequence
    rw [show ((some ((a :: tl).map (fun n : Nat => (n : ℤ)))).getD []) =
      (a :: tl).map (fun n : Nat => (n : ℤ)) from rfl]
    rw [if_neg (by rw [any_natCast_neg_false]; exact Bool.false_ne_true)]
    rw [if_neg (not_not_intro ⟨hov1', hov2'⟩)]
    rfl

/-- **C10.**  With `tokenizer = None`, `__getitem__` never returns: every
path fails (first conjunct).  It fails with the unbound-name error on the
within-bound path (second conjunct: the `data` dict at line 716 was never
initialised) and on the windowed path whenever truncation succeeds (third
conjunct: line 653) — but NOT on every windowed index: see
`C10_counterexample`, where an empty diff-location list makes
`truncate_sequence` raise a ValueError first. -/
theorem C10_tokenizer_none_never_returns (recs : List PRec)
    (dfPairs : List PairInfo) (dsamp : List (Nat × List Nat)) (st' : TSettings)
    (i : Nat) (c : Nat) (z : ℤ) (u : Nat) (pick : List Nat) :
    (DatasetPairs_getitem recs dfPairs dsamp st' none i c z u pick).isOk = false ∧
    (∀ (h : i < recs.length) (ip : Nat) (rest : List Nat) (pair : PairInfo)
        (M : Nat),
      List.lookup i dsamp = some (ip :: rest) →
      dfPairs.get? ip = some pair →
      st'.max_length = some M →
      ((recs.get ⟨i, h⟩).protein_sequence.length : ℤ) ≤ (M : ℤ) - 2 →
      DatasetPairs_getitem recs dfPairs dsamp st' none i c z u pick =
        .error .nameError) ∧
    (∀ (h : i < recs.length) (ip : Nat) (rest : List Nat) (pair : PairInfo)
        (M : Nat),
      List.lookup i dsamp = some (ip :: rest) →
      dfPairs.get? ip = some pair →
      st'.max_length = some M →
      (M : ℤ) - 2 < ((recs.get ⟨i, h⟩).protein_sequence.length : ℤ) →
      st'.truncate = some TMode.single →
      0 ≤ st'.overlap → st'.overlap < 1 →
      pair.diff_locations ≠ [] →
      DatasetPairs_getitem recs dfPairs dsamp st' none i c z u pick =
        .error .nameError) := by
  refine ⟨?_, ?_, ?_⟩
  · by_cases hrec : i < recs.length
    · unfold DatasetPairs_getitem
      rw [dif_pos hrec]
      cases hlk : List.lookup i dsamp with
      | none => simp only [hlk]; rfl
      | some l =>
        cases l with
        | nil => simp only [hlk]; rfl
        | cons ip rest =>
          simp only [hlk]
          cases hgp : dfPairs.get? ip with
          | none => simp only [hgp]; rfl
          | some pair =>
            simp only [hgp]
            cases hML : st'.max_length with
            | none => simp only [hML]; rfl
            | some M =>
              simp only [hML]
              by_cases hlong : ((M : ℤ) - 2 <
                  ((recs.get ⟨i, hrec⟩).protein_sequence.length : ℤ))
              · rw [if_pos hlong]
                by_cases hmode : (st'.truncate = some TMode.single ∨
                    st'.truncate = some TMode.split)
                · rw [if_pos hmode]
                  cases ht : truncate_sequence
                      (recs.get ⟨i, hrec⟩).protein_sequence st'
                      (some (pair.diff_locations.map (fun n : Nat => (n : ℤ))))
                      c z u pick with
                  | error e => simp only [ht]; rfl
                  | ok pr =>
                    obtain ⟨ta, tb⟩ := pr
                    simp only [ht]
                    rfl
                · rw [if_neg hmode]
                  rfl
              · rw [if_neg hlong]
                rfl
    · unfold DatasetPairs_getitem
      rw [dif_neg hrec]
      rfl
  · intro h ip rest pair M hlk hgp hML hle
    unfold DatasetPairs_getitem
    rw [dif_pos h]
    simp only [hlk, hgp, hML]
    rw [if_neg (not_lt.mpr hle)]
  · intro h ip rest pair M hlk hgp hML hgt hmode hov1 hov2 hdl
    unfold DatasetPairs_getitem
    rw [dif_pos h]
    simp only [hlk, hgp, hML]
    rw [if_pos hgt, if_pos (Or.inl hmode)]
    cases ht : truncate_sequence (recs.get ⟨i, h⟩).protein_sequence st'
        (some (pair.diff_locations.map (fun n : Nat => (n : ℤ)))) c z u pick with
    | error e =>
      have hok := truncate_single_some_isOk (recs.get ⟨i, h⟩).protein_sequence
        st' pair.diff_locations c z u pick M hmode hML hov1 hov2 hdl
      rw [ht] at hok
      exact absurd hok (by simp [Except.isOk, Except.toBool])
    | ok pr =>
      obtain ⟨ta, tb⟩ := pr
      simp only [ht]

/-- A one-record table whose sequence (length 10) must be windowed at
`max_length = 4`, paired with itself conceptually: the pair row has an
EMPTY diff-location list. -/
def gRecs10 : List PRec := [⟨List.replicate 10 'A', 7, 50, some 0, some []⟩]

def gPairs10 : List PairInfo := [⟨0, 0, some 0, []⟩]

def gSet10 : TSettings := ⟨some 4, some TMode.single, 0, none⟩

/-- Counterexample to C10's "any index with a pending pair": on the
windowed path with an empty diff-location list, `np.random.choice(
diff_locations)` inside `truncate_sequence` raises ValueError (not the
claimed unbound-name NameError). -/
theorem C10_counterexample :
    DatasetPairs_getitem gRecs10 gPairs10 [(0, [0])] gSet10 none 0 0 0 0 [] =
      .error .valueError := by
  rfl

/-- Witness for C10: a within-bound record (sequence length 2,
`max_length` 4) with a pending pair fails with the unbound-name error. -/
theorem C10_witness :
    DatasetPairs_getitem sRecs gPairs10 [(0, [0])] gSet10 none 0 0 0 0 [] =
      .error .nameError :=
  (C10_tokenizer_none_never_returns sRecs gPairs10 [(0, [0])] gSet10
      0 0 0 0 []).2.1 (by decide) 0 [] ⟨0, 0, some 0, []⟩ 4 rfl rfl rfl
    (by decide)
